import Mathlib

/-!
Shallow embedding of the 9elt/color repository core.

Numbers are modelled as rationals; JS Math.round is floor at one half,
JS remainder truncates toward zero.  Source files embedded below:
src/util.ts (clamp and filter helpers, parsing, luma), src/rgb.ts,
src/hsl.ts, src/color.ts (the Color facade state machine) and the
historical index.ts variant (Uint16Array based).
-/

set_option maxRecDepth 4000

namespace util

/-- Integer truncation toward zero of a rational, as JS Math.trunc. -/
def ratTrunc (q : ℚ) : ℤ := if 0 ≤ q then ⌊q⌋ else -⌊-q⌋

/-- JS Math.round: floor of x + 1/2 (halves round toward plus infinity). -/
def jsRound (x : ℚ) : ℚ := (⌊x + 1/2⌋ : ℤ)

/-- JS remainder operator: a - b * trunc(a / b), sign follows the dividend. -/
def jsMod (a b : ℚ) : ℚ := a - b * (ratTrunc (a / b) : ℚ)

/-- util.ts limit: v > max ? max : v < 0 ? 0 : v -/
def limit (v mx : ℚ) : ℚ := if v > mx then mx else if v < 0 then 0 else v

/-- util.ts unit: clamp to the unit interval. -/
def unit (n : ℚ) : ℚ := limit n 1

/-- util.ts byte: clamp to 0..255. -/
def byte (b : ℚ) : ℚ := limit b 255

/-- util.ts byte_: round then clamp to 0..255. -/
def byte_ (b : ℚ) : ℚ := byte (jsRound b)

/-- util.ts angle: clamp to 0..360. -/
def angle (d : ℚ) : ℚ := limit d 360

/-- util.ts angle_: round then clamp to 0..360. -/
def angle_ (d : ℚ) : ℚ := angle (jsRound d)

/-- util.ts pct: clamp to 0..100. -/
def pct (p : ℚ) : ℚ := limit p 100

/-- util.ts pct_: round then clamp to 0..100. -/
def pct_ (p : ℚ) : ℚ := pct (jsRound p)

/-- util.ts rotate_: angle + deg > 359 ? angle + deg - 359 : angle + deg -/
def rotate_ (a deg : ℚ) : ℚ := if a + deg > 359 then a + deg - 359 else a + deg

/-- util.ts contrast byte filter. -/
def contrast (b value : ℚ) : ℚ := byte_ (value * (b - 128) + 128)

/-- util.ts brightness byte filter. -/
def brightness (b value : ℚ) : ℚ := byte_ (b * value)

/-- util.ts solid byte filter: blend against a background channel. -/
def solid (b bg alpha : ℚ) : ℚ := byte_ (b * alpha + bg * (1 - alpha))

end util

/-- src/rgb.ts RGBa component set: four byte slots r, g, b, a. -/
structure RGBa where
  r : ℚ
  g : ℚ
  b : ℚ
  a : ℚ
  deriving DecidableEq, Repr

/-- src/hsl.ts HSLa component set: hue degrees, sat and light percent, unit alpha. -/
structure HSLa where
  h : ℚ
  s : ℚ
  l : ℚ
  a : ℚ
  deriving DecidableEq, Repr

namespace HSLa

/-- HSLa.alpha getter. -/
def alpha (x : HSLa) : ℚ := x.a

/-- HSLa.hasAlpha: a !== 1. -/
def hasAlpha (x : HSLa) : Bool := x.a ≠ 1

/-- hsl.ts HSLa.fromRGBa, the RGB to HSL conversion (switch cases r then g then b). -/
def fromRGBa (x : RGBa) : HSLa :=
  let r := x.r / 255
  let g := x.g / 255
  let b := x.b / 255
  let l := max r (max g b)
  let s := l - min r (min g b)
  let h : ℚ :=
    if s = 0 then 0
    else if l = r then (g - b) / s
    else if l = g then (b - r) / s + 2
    else if l = b then (r - g) / s + 4
    else 0
  { h := util.angle_ (if 60 * h < 0 then 60 * h + 360 else 60 * h)
    s := util.pct_ (100 * (if s = 0 then 0 else
           if l ≤ 1/2 then s / (2 * l - s) else s / (2 - (2 * l - s))))
    l := util.pct_ (100 * (2 * l - s) / 2)
    a := util.unit (x.a / 255) }

/-- hsl.ts HSLa.opacity: a := unit(value). -/
def opacity (x : HSLa) (value : ℚ) : HSLa := { x with a := util.unit value }

/-- hsl.ts HSLa.rotateHue: h := rotate_(h, deg). -/
def rotateHue (x : HSLa) (deg : ℚ) : HSLa := { x with h := util.rotate_ x.h deg }

/-- hsl.ts HSLa.saturate: s := pct_(s * value). -/
def saturate (x : HSLa) (value : ℚ) : HSLa := { x with s := util.pct_ (x.s * value) }

/-- hsl.ts HSLa.invert: h := rotate_(h,180); s := 100 - s; l := 100 - l. -/
def invert (x : HSLa) : HSLa :=
  { x with h := util.rotate_ x.h 180, s := 100 - x.s, l := 100 - x.l }

end HSLa

namespace RGBa

/-- RGBa.alpha getter: a / 255. -/
def alpha (x : RGBa) : ℚ := x.a / 255

/-- RGBa.hasAlpha: a !== 255. -/
def hasAlpha (x : RGBa) : Bool := x.a ≠ 255

/-- rgb.ts private helper f used by fromHSLa; JS % truncates toward zero. -/
def f (n h l a : ℚ) : ℚ :=
  let n' := util.jsMod (n + h / 30) 12
  l - a * max (-1) (min (n' - 3) (min (9 - n') 1))

/-- rgb.ts RGBa.fromHSLa, the HSL to RGB conversion. -/
def fromHSLa (x : HSLa) : RGBa :=
  let s := x.s / 100
  let l := x.l / 100
  let a := s * min l (1 - l)
  { r := util.byte_ (255 * f 0 x.h l a)
    g := util.byte_ (255 * f 8 x.h l a)
    b := util.byte_ (255 * f 4 x.h l a)
    a := util.byte_ (x.a * 255) }

/-- rgb.ts RGBa.contrast: each of r,g,b through the contrast byte filter. -/
def contrast (x : RGBa) (value : ℚ) : RGBa :=
  { x with r := util.contrast x.r value
           g := util.contrast x.g value
           b := util.contrast x.b value }

/-- rgb.ts RGBa.brightness: each of r,g,b through the brightness byte filter. -/
def brightness (x : RGBa) (value : ℚ) : RGBa :=
  { x with r := util.brightness x.r value
           g := util.brightness x.g value
           b := util.brightness x.b value }

/-- rgb.ts RGBa.opacity: a := byte_(value * 255). -/
def opacity (x : RGBa) (value : ℚ) : RGBa := { x with a := util.byte_ (value * 255) }

/-- rgb.ts RGBa.solid: blend r,g,b against the background with the current
alpha as weight (alpha read before being reset), then a := 255.
The background defaults to white when absent. -/
def solid (x : RGBa) (bg : Option RGBa) : RGBa :=
  let r_ := match bg with | none => 255 | some t => t.r
  let g_ := match bg with | none => 255 | some t => t.g
  let b_ := match bg with | none => 255 | some t => t.b
  { r := util.solid x.r r_ x.alpha
    g := util.solid x.g g_ x.alpha
    b := util.solid x.b b_ x.alpha
    a := 255 }

/-- rgb.ts RGBa.invert: each of r,g,b becomes 255 - byte, alpha untouched. -/
def invert (x : RGBa) : RGBa :=
  { x with r := 255 - x.r, g := 255 - x.g, b := 255 - x.b }

end RGBa

namespace util

/-- util.ts luma: BT.709 weights (BT.601 when the YUV flag is set), over 255. -/
def luma (x : RGBa) (YUV : Bool) : ℚ :=
  ((if YUV then 299/1000 else 2126/10000) * x.r
    + (if YUV then 587/1000 else 7152/10000) * x.g
    + (if YUV then 114/1000 else 722/10000) * x.b) / 255

/-- util.ts lumaAlpha: luma of the color composited channel by channel against
the background (default white), with the alpha byte as the blend weight. -/
def lumaAlpha (x : RGBa) (bg : Option RGBa) (YUV : Bool) : ℚ :=
  let r_ := match bg with | none => 255 | some t => t.r
  let g_ := match bg with | none => 255 | some t => t.g
  let b_ := match bg with | none => 255 | some t => t.b
  ((if YUV then 299/1000 else 2126/10000) * solid x.r r_ x.a
    + (if YUV then 587/1000 else 7152/10000) * solid x.g g_ x.a
    + (if YUV then 114/1000 else 722/10000) * solid x.b b_ x.a) / 255

end util

/-!
src/color.ts: the Color facade.  A Color owns an optional RGBa set, an
optional HSLa set, the staleness flag outdated (-1 none, 0 RGBa outdated,
1 HSLa outdated), an optional background Color (the source field is
spelled backgound) and two memoized luma slots.  Reads of a stale space
convert on demand; mutators mark the opposite space stale and clear the
memoized luma values.
-/

inductive ColorState where
  | mk (rgba : Option RGBa) (hsla : Option HSLa) (outdated : ℤ)
       (backgound : Option ColorState) (lumaC : Option ℚ) (lumaYUVC : Option ℚ)

namespace ColorState

/-- Field access: the private #_RGBa slot. -/
def rgba : ColorState → Option RGBa
  | mk v _ _ _ _ _ => v

/-- Field access: the private #_HSLa slot. -/
def hsla : ColorState → Option HSLa
  | mk _ v _ _ _ _ => v

/-- Field access: the #outdated flag. -/
def outdated : ColorState → ℤ
  | mk _ _ v _ _ _ => v

/-- Field access: the #backgound reference. -/
def backgound : ColorState → Option ColorState
  | mk _ _ _ v _ _ => v

/-- Field access: the memoized #luma slot. -/
def lumaC : ColorState → Option ℚ
  | mk _ _ _ _ v _ => v

/-- Field access: the memoized #lumaYUV slot. -/
def lumaYUVC : ColorState → Option ℚ
  | mk _ _ _ _ _ v => v

/-- The stored RGBa set; a JS read of the absent slot is modelled by a zero set. -/
def rgbaD (c : ColorState) : RGBa := c.rgba.getD ⟨0, 0, 0, 0⟩

/-- The stored HSLa set; a JS read of the absent slot is modelled by a zero set. -/
def hslaD (c : ColorState) : HSLa := c.hsla.getD ⟨0, 0, 0, 0⟩

/-- Color.#fromRGBa: seed from an RGBa set, HSLa marked outdated. -/
def fromRGBaSeed (t : RGBa) : ColorState := mk (some t) none 1 none none none

/-- Color.#fromHSLa: seed from an HSLa set, RGBa marked outdated. -/
def fromHSLaSeed (t : HSLa) : ColorState := mk none (some t) 0 none none none

/-- get #RGBa: convert from HSLa first when the RGBa slot is outdated. -/
def RGBaGet (c : ColorState) : RGBa × ColorState :=
  if c.outdated = 0 then
    let v := RGBa.fromHSLa c.hslaD
    (v, mk (some v) c.hsla (-1) c.backgound c.lumaC c.lumaYUVC)
  else (c.rgbaD, c)

/-- get #HSLa: convert from RGBa first when the HSLa slot is outdated. -/
def HSLaGet (c : ColorState) : HSLa × ColorState :=
  if c.outdated = 1 then
    let v := HSLa.fromRGBa c.rgbaD
    (v, mk c.rgba (some v) (-1) c.backgound c.lumaC c.lumaYUVC)
  else (c.hslaD, c)

/-- get hasAlpha, through #preferHSLa: the HSLa set unless it is the outdated one. -/
def hasAlpha (c : ColorState) : Bool :=
  if c.outdated ≠ 1 then c.hslaD.hasAlpha else c.rgbaD.hasAlpha

/-- get alpha, through #preferHSLa. -/
def alphaGet (c : ColorState) : ℚ :=
  if c.outdated ≠ 1 then c.hslaD.alpha else c.rgbaD.alpha

/-- Color.contrast: mutate the fresh RGBa, outdate HSLa, clear the luma cache. -/
def contrast (c : ColorState) (v : ℚ) : ColorState :=
  let p := c.RGBaGet
  mk (some (p.1.contrast v)) p.2.hsla 1 p.2.backgound none none

/-- Color.brightness: mutate the fresh RGBa, outdate HSLa, clear the luma cache. -/
def brightness (c : ColorState) (v : ℚ) : ColorState :=
  let p := c.RGBaGet
  mk (some (p.1.brightness v)) p.2.hsla 1 p.2.backgound none none

/-- Color.opacity: write the alpha of whichever set #preferRGBa yields (the
stored RGBa unless it is the outdated one, in that case the HSLa set), then
outdateHSLa(preferred), which leaves the flag alone when RGBa is the outdated
one and sets it to 1 otherwise. -/
def opacity (c : ColorState) (v : ℚ) : ColorState :=
  if c.outdated = 0 then
    mk c.rgba (some (c.hslaD.opacity v)) 0 c.backgound none none
  else
    mk (some (c.rgbaD.opacity v)) c.hsla 1 c.backgound none none

/-- Color.solid: when hasAlpha, composite the fresh RGBa against the background
bytes (reading them converts the background), outdate HSLa and clear the cache;
otherwise do nothing. -/
def solid (c : ColorState) : ColorState :=
  if c.hasAlpha then
    let p := c.RGBaGet
    match p.2.backgound with
    | none => mk (some (p.1.solid none)) p.2.hsla 1 none none none
    | some bg =>
        let q := bg.RGBaGet
        mk (some (p.1.solid (some q.1))) p.2.hsla 1 (some q.2) none none
  else c

/-- Color.rotateHue: mutate the fresh HSLa, outdate RGBa, clear the luma cache. -/
def rotateHue (c : ColorState) (deg : ℚ) : ColorState :=
  let p := c.HSLaGet
  mk p.2.rgba (some (p.1.rotateHue deg)) 0 p.2.backgound none none

/-- Color.saturate: mutate the fresh HSLa, outdate RGBa, clear the luma cache. -/
def saturate (c : ColorState) (v : ℚ) : ColorState :=
  let p := c.HSLaGet
  mk p.2.rgba (some (p.1.saturate v)) 0 p.2.backgound none none

/-- Color.invert: mutate the fresh RGBa, outdate HSLa, clear the luma cache. -/
def invert (c : ColorState) : ColorState :=
  let p := c.RGBaGet
  mk (some (p.1.invert)) p.2.hsla 1 p.2.backgound none none

/-- Color.invertHSL: mutate the fresh HSLa, outdate RGBa, clear the luma cache. -/
def invertHSL (c : ColorState) : ColorState :=
  let p := c.HSLaGet
  mk p.2.rgba (some (p.1.invert)) 0 p.2.backgound none none

/-- Color.background: store the background reference; the luma caches are NOT
touched by the source. -/
def background (c : ColorState) (bg : ColorState) : ColorState :=
  mk c.rgba c.hsla c.outdated (some bg) c.lumaC c.lumaYUVC

/-- The shared body of the luma and lumaYUV getters: hasAlpha is checked on
the current state, then the RGBa bytes are read (converting when stale) and,
when compositing, the background bytes are read the same way. -/
def lumaCompute (c : ColorState) (YUV : Bool) : ℚ × ColorState :=
  if c.hasAlpha then
    let p := c.RGBaGet
    match p.2.backgound with
    | none => (util.lumaAlpha p.1 none YUV, p.2)
    | some bg =>
        let q := bg.RGBaGet
        (util.lumaAlpha p.1 (some q.1) YUV,
         mk p.2.rgba p.2.hsla p.2.outdated (some q.2) p.2.lumaC p.2.lumaYUVC)
  else
    let p := c.RGBaGet
    (util.luma p.1 YUV, p.2)

/-- get luma: serve the memoized value unless it is absent or zero (the JS
truthiness test), else compute, memoize and return. -/
def lumaGet (c : ColorState) : ℚ × ColorState :=
  match c.lumaC with
  | some v =>
      if v = 0 then
        let p := c.lumaCompute false
        (p.1, mk p.2.rgba p.2.hsla p.2.outdated p.2.backgound (some p.1) p.2.lumaYUVC)
      else (v, c)
  | none =>
      let p := c.lumaCompute false
      (p.1, mk p.2.rgba p.2.hsla p.2.outdated p.2.backgound (some p.1) p.2.lumaYUVC)

/-- get lumaYUV: same shape as get luma over the second memo slot. -/
def lumaYUVGet (c : ColorState) : ℚ × ColorState :=
  match c.lumaYUVC with
  | some v =>
      if v = 0 then
        let p := c.lumaCompute true
        (p.1, mk p.2.rgba p.2.hsla p.2.outdated p.2.backgound p.2.lumaC (some p.1))
      else (v, c)
  | none =>
      let p := c.lumaCompute true
      (p.1, mk p.2.rgba p.2.hsla p.2.outdated p.2.backgound p.2.lumaC (some p.1))

/-- The authoritative RGBa denotation: the conversion of the stored HSLa when
the RGBa slot is the outdated one, the stored RGBa otherwise. -/
def authRGBa (c : ColorState) : RGBa :=
  if c.outdated = 0 then RGBa.fromHSLa c.hslaD else c.rgbaD

/-- The authoritative HSLa denotation: the conversion of the stored RGBa when
the HSLa slot is the outdated one, the stored HSLa otherwise. -/
def authHSLa (c : ColorState) : HSLa :=
  if c.outdated = 1 then HSLa.fromRGBa c.rgbaD else c.hslaD

/-- The authoritative bytes of the attached background, if any. -/
def authBg (c : ColorState) : Option RGBa :=
  c.backgound.map fun bg => authRGBa bg

/-- The luma value a fresh computation yields on the current state. -/
def lumaValue (c : ColorState) (YUV : Bool) : ℚ :=
  if c.hasAlpha then util.lumaAlpha (authRGBa c) (authBg c) YUV
  else util.luma (authRGBa c) YUV

/-- The memo slots, when populated with a nonzero value, hold the luma of the
current state. -/
def cacheOK (c : ColorState) : Prop :=
  (∀ v, c.lumaC = some v → v ≠ 0 → v = lumaValue c false) ∧
  (∀ v, c.lumaYUVC = some v → v ≠ 0 → v = lumaValue c true)

/-- The stored RGBa alpha byte never exceeds 255 (every write clamps it). -/
def wfAlpha (c : ColorState) : Prop :=
  ∀ t, c.rgba = some t → t.a ≤ 255

/-- The state invariant the freshness argument runs on. -/
def WF (c : ColorState) : Prop := wfAlpha c ∧ cacheOK c

end ColorState

/-!
util.ts string parsing.  JS strings are modelled as Lean character lists;
JS parseInt and parseFloat return none for NaN (no digits to read); the
values a parse stores without any digit check therefore come out as
Option rationals, a none slot standing for a stored NaN.
-/

namespace util

/-- JS String.prototype.split with a one character separator. -/
def splitChar (sep : Char) : List Char → List (List Char)
  | [] => [[]]
  | c :: rest =>
    let r := splitChar sep rest
    if c = sep then [] :: r
    else
      match r with
      | [] => [[c]]
      | x :: xs => (c :: x) :: xs

/-- Decimal value of a digit run. -/
def digitsToNat (l : List Char) : ℕ :=
  l.foldl (fun n c => 10 * n + (c.toNat - 48)) 0

/-- JS parseInt in base 10: skip whitespace, optional sign, maximal leading
digit run; NaN (none) when no digit is read.  (Hexadecimal prefixes do not
occur in the repository inputs and are not modelled.) -/
def parseIntJS (s : List Char) : Option ℚ :=
  let t := s.dropWhile Char.isWhitespace
  match t with
  | '-' :: r =>
      let d := r.takeWhile Char.isDigit
      if d = [] then none else some (-(digitsToNat d : ℚ))
  | '+' :: r =>
      let d := r.takeWhile Char.isDigit
      if d = [] then none else some ((digitsToNat d : ℚ))
  | _ =>
      let d := t.takeWhile Char.isDigit
      if d = [] then none else some ((digitsToNat d : ℚ))

/-- JS parseFloat: skip whitespace, optional sign, digits with an optional
decimal point; NaN (none) when no digit is read.  (Exponent forms do not
occur in the repository inputs and are not modelled.) -/
def parseFloatJS (s : List Char) : Option ℚ :=
  let t := s.dropWhile Char.isWhitespace
  let core : List Char → Option ℚ := fun u =>
    let i := u.takeWhile Char.isDigit
    let rest := u.dropWhile Char.isDigit
    let frac : List Char :=
      match rest with
      | '.' :: fr => fr.takeWhile Char.isDigit
      | _ => []
    if i = [] ∧ frac = [] then none
    else some ((digitsToNat i : ℚ) + (digitsToNat frac : ℚ) / (10 : ℚ) ^ frac.length)
  match t with
  | '-' :: r => (core r).map fun x => -x
  | '+' :: r => core r
  | _ => core t

/-- JS String.prototype.replace with a plain percent pattern: remove the
first percent character only. -/
def removeFirstPct : List Char → List Char
  | [] => []
  | c :: r => if c = '%' then r else c :: removeFirstPct r

/-- util.ts rgbToRGB.  The split chain throws on a string without the two
brackets or with fewer than three comma fields; the three channel slots are
stored straight from parseInt (a none is a stored NaN); the alpha byte comes
from parseFloat with the JS or-one fallback. -/
def rgbToRGB (color : List Char) : Except String (Option ℚ × Option ℚ × Option ℚ × ℚ) :=
  let step := ((splitChar '(' color).get? 1).bind fun s => (splitChar ')' s).get? 0
  match step.map fun s => splitChar ',' s with
  | none => .error ("invalid rgb color " ++ String.mk color)
  | some rgb =>
    if rgb.length < 3 then .error ("invalid rgb color " ++ String.mk color)
    else
      let aRaw := match rgb.get? 3 with
        | none => none
        | some s4 => parseFloatJS s4
      let aVal : ℚ := match aRaw with
        | none => 1
        | some x => if x = 0 then 1 else x
      .ok (parseIntJS (rgb.headD []), parseIntJS ((rgb.get? 1).getD []),
           parseIntJS ((rgb.get? 2).getD []), byte_ (aVal * 255))

/-- util.ts hslToHSL.  A missing bracket pair makes the destructuring of
undefined throw a TypeError; an empty color part or fewer than three space
fields throws the descriptive error; the three component slots are stored
straight from parseInt (a none is a stored NaN). -/
def hslToHSL (color : List Char) : Except String (Option ℚ × Option ℚ × Option ℚ × ℚ) :=
  let step := ((splitChar '(' color).get? 1).bind fun s => (splitChar ')' s).get? 0
  match step.map fun s => splitChar '/' s with
  | none => .error "TypeError: undefined is not iterable"
  | some parts =>
    let clr := parts.headD []
    if clr = [] then .error ("invalid hsl color " ++ String.mk color)
    else
      let data := splitChar ' ' clr
      if data.length < 3 then .error ("invalid hsl color " ++ String.mk color)
      else
        let pf := match parts.get? 1 with
          | none => none
          | some aStr => parseFloatJS (removeFirstPct aStr)
        let alpha0 : ℚ := match pf with
          | none => 1
          | some x => if x = 0 then 1 else x
        let alpha := unit (if alpha0 > 1 then alpha0 / 100 else alpha0)
        .ok (parseIntJS (data.headD []), parseIntJS ((data.get? 1).getD []),
             parseIntJS ((data.get? 2).getD []), alpha)

end util

/-- The RGB to HSL to RGB byte round trip of the component spaces. -/
def roundTrip (x : RGBa) : RGBa := RGBa.fromHSLa (HSLa.fromRGBa x)

/-!
index.ts, the Uint16Array variant: a color is eight unsigned 16 bit slots
r, g, b, a, h, s, l and a model bitmask (1 = RGB fresh, 2 = HSL fresh);
every write into a slot goes through the JS ToUint16 coercion.
-/

namespace idx

/-- JS ToUint16: truncate toward zero, then take the residue mod 2^16. -/
def toUint16 (x : ℚ) : ℚ := ((Int.emod (util.ratTrunc x) 65536 : ℤ) : ℚ)

/-- An index.ts Color: the eight Uint16Array slots. -/
structure Color where
  r : ℚ
  g : ℚ
  b : ℚ
  a : ℚ
  h : ℚ
  s : ℚ
  l : ℚ
  model : ℕ
  deriving DecidableEq, Repr

/-- new Color(r,g,b,a): seed the RGB slots (through the Uint16 write
coercion over a zeroed backing array) and set the model to RGB. -/
def mkColor (r g b a : ℚ) : Color :=
  { r := toUint16 r, g := toUint16 g, b := toUint16 b, a := toUint16 a,
    h := 0, s := 0, l := 0, model := 1 }

/-- index.ts hsl(color): populate H,S,L from R,G,B unless HSL is fresh. -/
def hslSync (c : Color) : Color :=
  if c.model &&& 2 ≠ 0 then c
  else
    let r := c.r / 255
    let g := c.g / 255
    let b := c.b / 255
    let l := max r (max g b)
    let s := l - min r (min g b)
    let h : ℚ :=
      if s = 0 then 0
      else if l = r then (g - b) / s
      else if l = g then 2 + (b - r) / s
      else 4 + (r - g) / s
    let a := 60 * h
    { c with
      h := toUint16 (if a < 0 then a + 360 else a)
      s := toUint16 (100 * (if s = 0 then 0 else
             if l ≤ 1/2 then s / (2 * l - s) else s / (2 - (2 * l - s))))
      l := toUint16 (100 * (2 * l - s) / 2)
      model := c.model ||| 2 }

/-- index.ts rgb(color): populate R,G,B from H,S,L unless RGB is fresh. -/
def rgbSync (c : Color) : Color :=
  if c.model &&& 1 ≠ 0 then c
  else
    let l := c.l / 100
    let s := (c.s / 100) * min l (1 - l)
    let r := c.h / 30
    let rr := util.jsMod r 12
    let rg := util.jsMod (r + 8) 12
    let rb := util.jsMod (r + 4) 12
    { c with
      r := toUint16 (255 * (l - s * max (-1) (min (rr - 3) (min (9 - rr) 1))))
      g := toUint16 (255 * (l - s * max (-1) (min (rg - 3) (min (9 - rg) 1))))
      b := toUint16 (255 * (l - s * max (-1) (min (rb - 3) (min (9 - rb) 1))))
      model := c.model ||| 1 }

/-- index.ts luma: BT.709 weighted sum of the RGB slots after requiring the
RGB model, on the 0..255 scale. -/
def luma (c : Color) : ℚ :=
  let c' := rgbSync c
  2126/10000 * c'.r + 7152/10000 * c'.g + 722/10000 * c'.b

/-- index.ts contrast: both lumas normalized to 0..1, then the shifted
quotient of the larger by the smaller. -/
def contrast (a b : Color) : ℚ :=
  let la := luma a / 255
  let lb := luma b / 255
  (max la lb + 1/20) / (min la lb + 1/20)

/-- The colors the data model admits: RGB fresh with byte range channels. -/
def validRGB (c : Color) : Prop :=
  c.model &&& 1 ≠ 0 ∧ 0 ≤ c.r ∧ c.r ≤ 255 ∧ 0 ≤ c.g ∧ c.g ≤ 255 ∧ 0 ≤ c.b ∧ c.b ≤ 255

end idx

/-!
The freshness argument for the Color facade: every accessor of the claim
list and every facade mutator, as one enumeration each, with the value the
spec assigns to each accessor (a value of the authoritative representation)
and the representation each mutator is required to leave authoritative.
-/

/-- The value an accessor hands out (the byte or HSL tuple of the string
accessors is the tuple fed to the pure formatter). -/
inductive RVal where
  | rgba (t : RGBa)
  | hsla (t : HSLa)
  | q (x : ℚ)
  deriving DecidableEq

/-- The accessor surface named by the freshness claim. -/
inductive Reader where
  | red | green | blue | hue | saturation | lightness
  | bytes | HSLbytes | hex | rgb | hsl | luma | lumaYUV
  deriving DecidableEq

/-- The facade mutators named by the freshness claim. -/
inductive Mut where
  | contrast (v : ℚ) | brightness (v : ℚ) | opacity (v : ℚ) | solid
  | rotateHue (v : ℚ) | saturate (v : ℚ) | invert | invertHSL
  deriving DecidableEq

namespace ColorState

/-- Run an accessor on a state: the returned value and the state it leaves
behind (conversion on read may populate the stale space or the memo slots). -/
def readM : Reader → ColorState → RVal × ColorState
  | .red, c => let p := c.RGBaGet; (.q p.1.r, p.2)
  | .green, c => let p := c.RGBaGet; (.q p.1.g, p.2)
  | .blue, c => let p := c.RGBaGet; (.q p.1.b, p.2)
  | .hue, c => let p := c.HSLaGet; (.q p.1.h, p.2)
  | .saturation, c => let p := c.HSLaGet; (.q p.1.s, p.2)
  | .lightness, c => let p := c.HSLaGet; (.q p.1.l, p.2)
  | .bytes, c => let p := c.RGBaGet; (.rgba p.1, p.2)
  | .HSLbytes, c => let p := c.HSLaGet; (.hsla p.1, p.2)
  | .hex, c => let p := c.RGBaGet; (.rgba p.1, p.2)
  | .rgb, c => let p := c.RGBaGet; (.rgba p.1, p.2)
  | .hsl, c => let p := c.HSLaGet; (.hsla p.1, p.2)
  | .luma, c => let p := c.lumaGet; (.q p.1, p.2)
  | .lumaYUV, c => let p := c.lumaYUVGet; (.q p.1, p.2)

/-- The value the spec assigns to each accessor: a component of the
authoritative representation (converting the stale one), or for the luma
accessors the luma of the authoritative bytes against the authoritative
background bytes. -/
def readSpec : Reader → ColorState → RVal
  | .red, c => .q c.authRGBa.r
  | .green, c => .q c.authRGBa.g
  | .blue, c => .q c.authRGBa.b
  | .hue, c => .q c.authHSLa.h
  | .saturation, c => .q c.authHSLa.s
  | .lightness, c => .q c.authHSLa.l
  | .bytes, c => .rgba c.authRGBa
  | .HSLbytes, c => .hsla c.authHSLa
  | .hex, c => .rgba c.authRGBa
  | .rgb, c => .rgba c.authRGBa
  | .hsl, c => .hsla c.authHSLa
  | .luma, c => .q (c.lumaValue false)
  | .lumaYUV, c => .q (c.lumaValue true)

/-- Run a facade mutator on a state. -/
def applyM : Mut → ColorState → ColorState
  | .contrast v, c => c.contrast v
  | .brightness v, c => c.brightness v
  | .opacity v, c => c.opacity v
  | .solid, c => c.solid
  | .rotateHue v, c => c.rotateHue v
  | .saturate v, c => c.saturate v
  | .invert, c => c.invert
  | .invertHSL, c => c.invertHSL

/-- The RGBa representation a mutator must leave authoritative: its own
pure operation applied to the representation that was authoritative when
it ran, converted across when the operation is HSL native. -/
def mutAuthRGBa : Mut → ColorState → RGBa
  | .contrast v, c => c.authRGBa.contrast v
  | .brightness v, c => c.authRGBa.brightness v
  | .opacity v, c =>
      if c.outdated = 0 then RGBa.fromHSLa (c.authHSLa.opacity v)
      else c.authRGBa.opacity v
  | .solid, c => if c.hasAlpha then c.authRGBa.solid c.authBg else c.authRGBa
  | .rotateHue v, c => RGBa.fromHSLa (c.authHSLa.rotateHue v)
  | .saturate v, c => RGBa.fromHSLa (c.authHSLa.saturate v)
  | .invert, c => c.authRGBa.invert
  | .invertHSL, c => RGBa.fromHSLa c.authHSLa.invert

/-- The HSLa representation a mutator must leave authoritative. -/
def mutAuthHSLa : Mut → ColorState → HSLa
  | .contrast v, c => HSLa.fromRGBa (c.authRGBa.contrast v)
  | .brightness v, c => HSLa.fromRGBa (c.authRGBa.brightness v)
  | .opacity v, c =>
      if c.outdated = 0 then c.authHSLa.opacity v
      else HSLa.fromRGBa (c.authRGBa.opacity v)
  | .solid, c =>
      if c.hasAlpha then HSLa.fromRGBa (c.authRGBa.solid c.authBg) else c.authHSLa
  | .rotateHue v, c => c.authHSLa.rotateHue v
  | .saturate v, c => c.authHSLa.saturate v
  | .invert, c => HSLa.fromRGBa c.authRGBa.invert
  | .invertHSL, c => c.authHSLa.invert

end ColorState

/-!
Helper lemmas: ranges of the clamp helpers, rounding on integers.
-/

namespace util

theorem limit_nonneg (v mx : ℚ) (h : 0 ≤ mx) : 0 ≤ limit v mx := by
  unfold limit
  split_ifs with h1 h2 <;> linarith

theorem limit_le (v mx : ℚ) (h : 0 ≤ mx) : limit v mx ≤ mx := by
  unfold limit
  split_ifs with h1 h2
  · linarith
  · linarith
  · linarith [not_lt.mp h1]

theorem limit_eq_self (v mx : ℚ) (h0 : 0 ≤ v) (h1 : v ≤ mx) : limit v mx = v := by
  unfold limit
  split_ifs with ha hb <;> linarith

theorem byte__nonneg (x : ℚ) : 0 ≤ byte_ x := limit_nonneg _ _ (by norm_num)

theorem byte__le (x : ℚ) : byte_ x ≤ 255 := limit_le _ _ (by norm_num)

theorem pct__nonneg (x : ℚ) : 0 ≤ pct_ x := limit_nonneg _ _ (by norm_num)

theorem pct__le (x : ℚ) : pct_ x ≤ 100 := limit_le _ _ (by norm_num)

theorem angle__nonneg (x : ℚ) : 0 ≤ angle_ x := limit_nonneg _ _ (by norm_num)

theorem angle__le (x : ℚ) : angle_ x ≤ 360 := limit_le _ _ (by norm_num)

theorem unit_nonneg (x : ℚ) : 0 ≤ unit x := limit_nonneg _ _ (by norm_num)

theorem unit_le (x : ℚ) : unit x ≤ 1 := limit_le _ _ (by norm_num)

theorem jsRound_intCast (n : ℤ) : jsRound (n : ℚ) = n := by
  unfold jsRound
  rw [show ((n:ℚ) + 1/2) = (n:ℤ) + (1/2 : ℚ) by ring, Int.floor_int_add]
  norm_num

end util

/-!
C2.  The spec: rotateHue(deg) stores (h + deg) mod 360, a value in [0,360),
negative deltas wrapping forward.  The source rotate_ compares against 359
and subtracts 359 once, and leaves negative sums alone: the code is an
off-by-one slip (its own sibling variant, index.ts rotate, uses a true mod
360 with a negative fix-up).
-/

/-- C2: rotateHue diverges from the (h+deg) mod 360 specification: at
h = 359, deg = 1 it stores 1 (mod would give 0); at h = 10, deg = -20 it
stores -10 (mod would give 350), a value outside [0,360); at h = 0,
deg = 720 it stores 361, also outside [0,360). -/
theorem rotateHue_not_mod360 :
    (HSLa.rotateHue ⟨359, 50, 50, 1⟩ 1).h = 1
  ∧ (HSLa.rotateHue ⟨10, 50, 50, 1⟩ (-20)).h = -10
  ∧ (HSLa.rotateHue ⟨0, 50, 50, 1⟩ 720).h = 361
  ∧ ¬ (0 ≤ (HSLa.rotateHue ⟨10, 50, 50, 1⟩ (-20)).h)
  ∧ ¬ ((HSLa.rotateHue ⟨0, 50, 50, 1⟩ 720).h < 360) := by
  refine ⟨?_, ?_, ?_, ?_, ?_⟩ <;> norm_num [HSLa.rotateHue, util.rotate_]

/-!
C5.  RGB inversion twice is the identity, exactly and unconditionally.
HSL inversion twice is NOT the identity on the hue: rotate_ adds 180 twice
and subtracts 359 instead of 360 on wrap, so every hue comes back one
degree high.
-/

/-- C5: invert twice restores every RGBa set exactly; invertHSL twice
applied to the HSLA set (0,50,50,1) yields hue 1, not the original hue 0
(saturation and lightness do return exactly). -/
theorem invert_twice_rgb_exact_hsl_not :
    (∀ x : RGBa, x.invert.invert = x)
  ∧ HSLa.invert (HSLa.invert ⟨0, 50, 50, 1⟩) = ⟨1, 50, 50, 1⟩
  ∧ ¬ HSLa.invert (HSLa.invert ⟨0, 50, 50, 1⟩) = ⟨0, 50, 50, 1⟩ := by
  refine ⟨?_, ?_, ?_⟩
  · intro x
    cases x
    simp only [RGBa.invert, RGBa.mk.injEq]
    norm_num
  · norm_num [HSLa.invert, util.rotate_]
  · norm_num [HSLa.invert, util.rotate_]

/-!
C4.  The byte round trip RGB -> HSL -> RGB.  Hue, saturation and lightness
are stored as rounded integers, so the round trip already drifts by two
byte steps on near-black inputs; moreover the saturation branch condition
of fromRGBa tests the maximum channel against one half instead of the
lightness, so e.g. (0,0,130) computes saturation 34 instead of 100 and the
round trip returns (42,42,85) - the blue channel is off by 45.
-/

/-- C4 counterexample: the valid byte tuple (0,0,130,255) does not round
trip within one: it returns (42,42,85,255), and 130 - 85 = 45 > 1. -/
theorem roundTrip_deviates_beyond_one :
    roundTrip ⟨0, 0, 130, 255⟩ = ⟨42, 42, 85, 255⟩
  ∧ ¬ ((130 : ℚ) - 85 ≤ 1) := by
  constructor
  · norm_num [roundTrip, RGBa.fromHSLa, HSLa.fromRGBa, RGBa.f, util.jsMod, util.ratTrunc,
      util.jsRound, util.byte_, util.byte, util.angle_, util.angle, util.pct_, util.pct,
      util.unit, util.limit, min_def, max_def]
  · norm_num

/-- C4 amended: only the alpha channel round trips exactly (for whole byte
alphas); the color channels can deviate by as much as 45 byte steps, as the
counterexample shows. -/
theorem roundTrip_alpha_exact (x : RGBa) (n : ℤ) (hn : x.a = (n : ℚ))
    (h0 : 0 ≤ x.a) (h255 : x.a ≤ 255) : (roundTrip x).a = x.a := by
  show util.byte_ ((HSLa.fromRGBa x).a * 255) = x.a
  have hu : (HSLa.fromRGBa x).a = x.a / 255 := by
    show util.unit (x.a / 255) = x.a / 255
    exact util.limit_eq_self _ _ (by positivity) (by rw [div_le_one] <;> norm_num [h255])
  rw [hu, div_mul_cancel₀ _ (by norm_num : (255:ℚ) ≠ 0)]
  unfold util.byte_ util.byte
  rw [hn, util.jsRound_intCast]
  exact util.limit_eq_self _ _ (by rw [← hn]; exact h0) (by rw [← hn]; exact h255)

/-- C4 witness: the alpha statement applied at the byte tuple (1,2,3,200). -/
theorem roundTrip_alpha_exact_witness :
    (⟨1, 2, 3, 200⟩ : RGBa).a = ((200 : ℤ) : ℚ) ∧ (roundTrip ⟨1, 2, 3, 200⟩).a = 200 :=
  ⟨by norm_num, roundTrip_alpha_exact ⟨1, 2, 3, 200⟩ 200 (by norm_num) (by norm_num) (by norm_num)⟩

/-!
C3.  Clamp-not-reject ranges.  The clamp helpers do hold the ranges for the
conversions, opacity and saturate; but rotateHue (through rotate_) can
store hues outside [0,360), the fromRGBa hue lands on 360 itself when the
raw hue rounds up to it, and the hsl() construction path stores the parsed
components with no clamping at all.
-/

/-- C3 counterexample: three range violations at explicit inputs: rotateHue
stores hue -10 on an in-range set; fromRGBa of the byte tuple (255,0,1,255)
stores hue exactly 360, outside [0,360); and hsl string construction stores
(999, 200, 300) unclamped. -/
theorem componentRange_counterexample :
    (HSLa.rotateHue ⟨10, 50, 50, 1⟩ (-20)).h = -10
  ∧ ¬ (0 ≤ (HSLa.rotateHue ⟨10, 50, 50, 1⟩ (-20)).h)
  ∧ (HSLa.fromRGBa ⟨255, 0, 1, 255⟩).h = 360
  ∧ util.hslToHSL ("hsl(999 200% 300%)".toList) = .ok (some 999, some 200, some 300, 1) := by
  refine ⟨?_, ?_, ?_, ?_⟩
  · norm_num [HSLa.rotateHue, util.rotate_]
  · norm_num [HSLa.rotateHue, util.rotate_]
  · norm_num [HSLa.fromRGBa, util.angle_, util.angle, util.jsRound, util.limit, util.unit,
      util.pct_, util.pct, min_def, max_def]
  · have h : util.unit (ite ((1:ℚ) > 1) (1/100) 1) = 1 := by
      norm_num [util.unit, util.limit]
    rw [← h]
    rfl

/-- C3 amended: the operations that go through the clamp helpers do keep
the data model ranges: fromRGBa yields s,l in [0,100] and a in [0,1] with
hue in [0,360] (360 included, not [0,360)); fromHSLa yields all four bytes
in [0,255]; opacity and saturate clamp; both inversions preserve in-range
components.  Construction and rotateHue are excluded: they store unclamped
values, as the counterexample shows. -/
theorem componentRange_amended :
    (∀ x : RGBa,
        0 ≤ (HSLa.fromRGBa x).h ∧ (HSLa.fromRGBa x).h ≤ 360
      ∧ 0 ≤ (HSLa.fromRGBa x).s ∧ (HSLa.fromRGBa x).s ≤ 100
      ∧ 0 ≤ (HSLa.fromRGBa x).l ∧ (HSLa.fromRGBa x).l ≤ 100
      ∧ 0 ≤ (HSLa.fromRGBa x).a ∧ (HSLa.fromRGBa x).a ≤ 1)
  ∧ (∀ y : HSLa,
        0 ≤ (RGBa.fromHSLa y).r ∧ (RGBa.fromHSLa y).r ≤ 255
      ∧ 0 ≤ (RGBa.fromHSLa y).g ∧ (RGBa.fromHSLa y).g ≤ 255
      ∧ 0 ≤ (RGBa.fromHSLa y).b ∧ (RGBa.fromHSLa y).b ≤ 255
      ∧ 0 ≤ (RGBa.fromHSLa y).a ∧ (RGBa.fromHSLa y).a ≤ 255)
  ∧ (∀ (y : HSLa) (v : ℚ), 0 ≤ (y.opacity v).a ∧ (y.opacity v).a ≤ 1)
  ∧ (∀ (x : RGBa) (v : ℚ), 0 ≤ (x.opacity v).a ∧ (x.opacity v).a ≤ 255)
  ∧ (∀ (y : HSLa) (v : ℚ), 0 ≤ (y.saturate v).s ∧ (y.saturate v).s ≤ 100)
  ∧ (∀ y : HSLa, 0 ≤ y.h → y.h < 360 → 0 ≤ y.s → y.s ≤ 100 → 0 ≤ y.l → y.l ≤ 100 →
        0 ≤ y.invert.h ∧ y.invert.h < 360
      ∧ 0 ≤ y.invert.s ∧ y.invert.s ≤ 100
      ∧ 0 ≤ y.invert.l ∧ y.invert.l ≤ 100)
  ∧ (∀ x : RGBa, 0 ≤ x.r → x.r ≤ 255 → 0 ≤ x.g → x.g ≤ 255 → 0 ≤ x.b → x.b ≤ 255 →
        0 ≤ x.invert.r ∧ x.invert.r ≤ 255
      ∧ 0 ≤ x.invert.g ∧ x.invert.g ≤ 255
      ∧ 0 ≤ x.invert.b ∧ x.invert.b ≤ 255) := by
  refine ⟨?_, ?_, ?_, ?_, ?_, ?_, ?_⟩
  · intro x
    exact ⟨util.angle__nonneg _, util.angle__le _, util.pct__nonneg _, util.pct__le _,
      util.pct__nonneg _, util.pct__le _, util.unit_nonneg _, util.unit_le _⟩
  · intro y
    exact ⟨util.byte__nonneg _, util.byte__le _, util.byte__nonneg _, util.byte__le _,
      util.byte__nonneg _, util.byte__le _, util.byte__nonneg _, util.byte__le _⟩
  · intro y v
    exact ⟨util.unit_nonneg _, util.unit_le _⟩
  · intro x v
    exact ⟨util.byte__nonneg _, util.byte__le _⟩
  · intro y v
    exact ⟨util.pct__nonneg _, util.pct__le _⟩
  · intro y h0 h1 h2 h3 h4 h5
    refine ⟨?_, ?_, by simpa [HSLa.invert] using h3, by simpa [HSLa.invert] using h2,
      by simpa [HSLa.invert] using h5, by simpa [HSLa.invert] using h4⟩
    · show 0 ≤ util.rotate_ y.h 180
      unfold util.rotate_
      split_ifs <;> linarith
    · show util.rotate_ y.h 180 < 360
      unfold util.rotate_
      split_ifs <;> linarith
  · intro x h0 h1 h2 h3 h4 h5
    refine ⟨?_, ?_, ?_, ?_, ?_, ?_⟩ <;> simp [RGBa.invert] <;> linarith

/-- C3 witness: the inversion range statements applied at in-range sets. -/
theorem componentRange_amended_witness :
    ((0:ℚ) ≤ 10 ∧ (10:ℚ) < 360 ∧ (0:ℚ) ≤ 50 ∧ (50:ℚ) ≤ 100)
  ∧ 0 ≤ (HSLa.invert ⟨10, 50, 50, 1⟩).h ∧ (HSLa.invert ⟨10, 50, 50, 1⟩).h < 360
  ∧ 0 ≤ (RGBa.invert ⟨10, 20, 30, 255⟩).r ∧ (RGBa.invert ⟨10, 20, 30, 255⟩).r ≤ 255 := by
  have h6 := componentRange_amended.2.2.2.2.2.1 ⟨10, 50, 50, 1⟩
    (by norm_num) (by norm_num) (by norm_num) (by norm_num) (by norm_num) (by norm_num)
  have h7 := componentRange_amended.2.2.2.2.2.2 ⟨10, 20, 30, 255⟩
    (by norm_num) (by norm_num) (by norm_num) (by norm_num) (by norm_num) (by norm_num)
  exact ⟨⟨by norm_num, by norm_num, by norm_num, by norm_num⟩, h6.1, h6.2.1, h7.1, h7.2.1⟩

/-!
Projection lemmas for the facade state constructor.
-/

namespace ColorState

@[simp] theorem rgba_mk (r h o bg l ly) : (mk r h o bg l ly).rgba = r := rfl

@[simp] theorem hsla_mk (r h o bg l ly) : (mk r h o bg l ly).hsla = h := rfl

@[simp] theorem outdated_mk (r h o bg l ly) : (mk r h o bg l ly).outdated = o := rfl

@[simp] theorem backgound_mk (r h o bg l ly) : (mk r h o bg l ly).backgound = bg := rfl

@[simp] theorem lumaC_mk (r h o bg l ly) : (mk r h o bg l ly).lumaC = l := rfl

@[simp] theorem lumaYUVC_mk (r h o bg l ly) : (mk r h o bg l ly).lumaYUVC = ly := rfl

end ColorState

/-!
C8.  Color.opacity goes through #preferRGBa: when the RGBa slot is the
outdated one (outdated = 0, HSL authoritative) it writes the HSLa alpha in
unit form and leaves the flag at 0 (RGB stays the stale space, because
outdateHSLa(true) only sets the flag when the RGBa slot is not the outdated
one); in every other state it writes the RGBa alpha byte and sets the flag
to 1.  Either way the color components of the written space are untouched.
-/

/-- C8: opacity writes the alpha of the authoritative space (HSLa unit
alpha when HSL is authoritative, RGBa alpha byte otherwise), changes no
color component of that space, and leaves the opposite space marked stale:
with outdated = 0 the HSLa set gets alpha unit(v) and RGB stays stale;
otherwise the RGBa set gets alpha byte_(v*255) and HSL becomes stale. -/
theorem opacity_targets_preferred_space (c : ColorState) (v : ℚ) :
    (c.outdated = 0 →
        (c.opacity v).hsla = some (c.hslaD.opacity v)
      ∧ (c.opacity v).rgba = c.rgba
      ∧ (c.hslaD.opacity v).h = c.hslaD.h
      ∧ (c.hslaD.opacity v).s = c.hslaD.s
      ∧ (c.hslaD.opacity v).l = c.hslaD.l
      ∧ (c.hslaD.opacity v).a = util.unit v
      ∧ (c.opacity v).outdated = 0)
  ∧ (c.outdated ≠ 0 →
        (c.opacity v).rgba = some (c.rgbaD.opacity v)
      ∧ (c.opacity v).hsla = c.hsla
      ∧ (c.rgbaD.opacity v).r = c.rgbaD.r
      ∧ (c.rgbaD.opacity v).g = c.rgbaD.g
      ∧ (c.rgbaD.opacity v).b = c.rgbaD.b
      ∧ (c.rgbaD.opacity v).a = util.byte_ (v * 255)
      ∧ (c.opacity v).outdated = 1) := by
  constructor
  · intro h
    unfold ColorState.opacity
    rw [if_pos h]
    exact ⟨rfl, rfl, rfl, rfl, rfl, rfl, rfl⟩
  · intro h
    unfold ColorState.opacity
    rw [if_neg h]
    exact ⟨rfl, rfl, rfl, rfl, rfl, rfl, rfl⟩

/-- C8 witness: both branches at seeded states: an HSL seeded color has
outdated = 0 and keeps it through opacity; an RGB seeded color has
outdated = 1 and opacity stores the alpha byte. -/
theorem opacity_targets_preferred_space_witness :
    (ColorState.fromHSLaSeed ⟨0, 100, 50, 1⟩).outdated = 0
  ∧ ((ColorState.fromHSLaSeed ⟨0, 100, 50, 1⟩).opacity (1/2)).outdated = 0
  ∧ (ColorState.fromRGBaSeed ⟨255, 0, 0, 255⟩).outdated ≠ 0
  ∧ ((ColorState.fromRGBaSeed ⟨255, 0, 0, 255⟩).opacity (1/2)).outdated = 1 := by
  refine ⟨rfl, ?_, by norm_num [ColorState.fromRGBaSeed], ?_⟩
  · exact ((opacity_targets_preferred_space (ColorState.fromHSLaSeed ⟨0, 100, 50, 1⟩)
      (1/2)).1 rfl).2.2.2.2.2.2
  · exact ((opacity_targets_preferred_space (ColorState.fromRGBaSeed ⟨255, 0, 0, 255⟩)
      (1/2)).2 (by norm_num [ColorState.fromRGBaSeed])).2.2.2.2.2.2

/-!
C10.  Color.solid is a no-op exactly when hasAlpha is false, and hasAlpha
is checked on the preferred space, not on the RGBa byte: a color whose
stale RGBa set still holds alpha byte 255 while the authoritative HSLa set
holds alpha 1/2 is composited, not skipped.
-/

/-- C10 counterexample: seed RGB (255,0,0,255), rotate the hue by zero
degrees (HSL becomes authoritative), set opacity one half (written to the
HSLa set; the stale RGBa set keeps alpha byte 255): solid() then changes
the RGBa bytes to (255,127,127,255), so it is not a no-op although the
stored RGBA alpha byte equals 255. -/
theorem solid_not_noop_on_stale_opaque_byte :
    let c2 := ((ColorState.fromRGBaSeed ⟨255, 0, 0, 255⟩).rotateHue 0).opacity (1/2)
    c2.rgba = some ⟨255, 0, 0, 255⟩
  ∧ c2.hsla = some ⟨0, 100, 50, 1/2⟩
  ∧ c2.outdated = 0
  ∧ c2.solid.rgba = some ⟨255, 127, 127, 255⟩
  ∧ c2.solid.outdated = 1
  ∧ ¬ c2.solid.rgba = c2.rgba := by
  norm_num [ColorState.fromRGBaSeed, ColorState.rotateHue, ColorState.opacity,
    ColorState.solid, ColorState.HSLaGet, ColorState.RGBaGet, ColorState.hasAlpha,
    ColorState.rgbaD, ColorState.hslaD,
    HSLa.fromRGBa, RGBa.fromHSLa, RGBa.f, HSLa.rotateHue, HSLa.opacity, HSLa.hasAlpha,
    RGBa.hasAlpha, RGBa.solid, RGBa.alpha, util.solid,
    util.jsMod, util.ratTrunc, util.jsRound, util.byte_, util.byte, util.angle_, util.angle,
    util.pct_, util.pct, util.unit, util.limit, util.rotate_, min_def, max_def]

/-- C10 amended: solid() is a complete no-op exactly for colors that report
no alpha through the preferred space (HSLa alpha 1 when HSL is not the
stale space, RGBa alpha byte 255 when it is): for such a color the whole
state - components, freshness flag, background, memo slots - is unchanged. -/
theorem solid_noop_when_opaque (c : ColorState) (h : c.hasAlpha = false) :
    c.solid = c := by
  unfold ColorState.solid
  simp [h]

/-- C10 witness: solid leaves an opaque RGB seeded color entirely alone. -/
theorem solid_noop_when_opaque_witness :
    (ColorState.fromRGBaSeed ⟨10, 20, 30, 255⟩).hasAlpha = false
  ∧ (ColorState.fromRGBaSeed ⟨10, 20, 30, 255⟩).solid
      = ColorState.fromRGBaSeed ⟨10, 20, 30, 255⟩ :=
  ⟨by norm_num [ColorState.fromRGBaSeed, ColorState.hasAlpha, ColorState.rgbaD,
      RGBa.hasAlpha],
   solid_noop_when_opaque _ (by norm_num [ColorState.fromRGBaSeed, ColorState.hasAlpha,
      ColorState.rgbaD, RGBa.hasAlpha])⟩

/-!
C6.  Every facade mutator clears both memo slots (solid only when it acts
at all, in which case the state is otherwise untouched); but reassigning
the background through Color.background does NOT clear them: a memoized
luma survives a background change and the next luma read serves the stale
value.
-/

/-- C6: the eight facade mutators leave both memo slots empty (solid either
clears them or changes nothing at all); background does not: seeding
rgba(255,170,68,128) with a white background, reading luma (memoizing
1063/5000), then reassigning a black background leaves the memo in place,
and the next luma read returns the memoized 1063/5000 although a fresh
computation over the current background yields 1. -/
theorem mutators_clear_luma_cache_background_does_not :
    (∀ (c : ColorState) (v : ℚ),
        (c.contrast v).lumaC = none ∧ (c.contrast v).lumaYUVC = none
      ∧ (c.brightness v).lumaC = none ∧ (c.brightness v).lumaYUVC = none
      ∧ (c.opacity v).lumaC = none ∧ (c.opacity v).lumaYUVC = none
      ∧ (c.rotateHue v).lumaC = none ∧ (c.rotateHue v).lumaYUVC = none
      ∧ (c.saturate v).lumaC = none ∧ (c.saturate v).lumaYUVC = none
      ∧ c.invert.lumaC = none ∧ c.invert.lumaYUVC = none
      ∧ c.invertHSL.lumaC = none ∧ c.invertHSL.lumaYUVC = none
      ∧ ((c.solid.lumaC = none ∧ c.solid.lumaYUVC = none) ∨ c.solid = c))
  ∧ (let c0 := ColorState.fromRGBaSeed ⟨255, 170, 68, 128⟩
     let w := ColorState.fromRGBaSeed ⟨255, 255, 255, 255⟩
     let k := ColorState.fromRGBaSeed ⟨0, 0, 0, 255⟩
     let s1 := c0.background w
     let s3 := (s1.lumaGet.2).background k
     s1.lumaGet.1 = 1063/5000
   ∧ s3.lumaC = some (1063/5000)
   ∧ s3.lumaGet.1 = 1063/5000
   ∧ s3.lumaValue false = 1
   ∧ ¬ s3.lumaGet.1 = s3.lumaValue false) := by
  constructor
  · intro c v
    refine ⟨rfl, rfl, rfl, rfl, ?_, ?_, rfl, rfl, rfl, rfl, rfl, rfl, rfl, rfl, ?_⟩
    · unfold ColorState.opacity
      split <;> rfl
    · unfold ColorState.opacity
      split <;> rfl
    · unfold ColorState.solid
      split
      · refine Or.inl ?_
        cases hbg : (c.RGBaGet).2.backgound <;> simp [hbg]
      · exact Or.inr rfl
  · norm_num [ColorState.fromRGBaSeed, ColorState.background, ColorState.lumaGet,
      ColorState.lumaCompute, ColorState.lumaValue, ColorState.authRGBa, ColorState.authBg,
      ColorState.RGBaGet, ColorState.hasAlpha, ColorState.rgbaD, ColorState.hslaD,
      HSLa.hasAlpha, RGBa.hasAlpha, util.lumaAlpha, util.luma, util.solid,
      util.jsRound, util.byte_, util.byte, util.limit, Option.map]

/-!
C7.  Malformed seeds: the split chains do throw on strings missing the
bracket structure, but a structurally well formed string with non numeric
components is accepted, and the parseInt NaN is stored into the component
tuple without any digit check.
-/

/-- C7: both construction parsers accept strings whose components are non
numeric and return a stored component set with NaN (none) in every color
slot instead of throwing: rgb(x,y,z) parses to (NaN,NaN,NaN,255) and
hsl(x y z) parses to (NaN,NaN,NaN,1). -/
theorem parsers_store_NaN :
    util.rgbToRGB ("rgb(x,y,z)".toList) = .ok (none, none, none, 255)
  ∧ util.hslToHSL ("hsl(x y z)".toList) = .ok (none, none, none, 1) := by
  constructor
  · have h : util.byte_ ((1:ℚ) * 255) = 255 := by
      norm_num [util.byte_, util.byte, util.jsRound, util.limit]
    rw [← h]
    rfl
  · have h : util.unit (ite ((1:ℚ) > 1) (1/100) 1) = 1 := by
      norm_num [util.unit, util.limit]
    rw [← h]
    rfl

/-!
C9.  The two color contrast of index.ts.
-/

namespace idx

theorem toUint16_nonneg (x : ℚ) : 0 ≤ toUint16 x := by
  unfold toUint16
  have := Int.emod_nonneg (util.ratTrunc x) (show (65536:ℤ) ≠ 0 by norm_num)
  exact_mod_cast this

theorem luma_nonneg (c : Color) (hr : 0 ≤ c.r) (hg : 0 ≤ c.g) (hb : 0 ≤ c.b) :
    0 ≤ luma c := by
  unfold luma rgbSync
  split
  · have h1 : (0:ℚ) ≤ 2126/10000 * c.r := by positivity
    have h2 : (0:ℚ) ≤ 7152/10000 * c.g := by positivity
    have h3 : (0:ℚ) ≤ 722/10000 * c.b := by positivity
    linarith
  · have h1 := toUint16_nonneg (255 * (c.l/100 - c.s/100 * min (c.l/100) (1 - c.l/100) *
      max (-1) (min (util.jsMod (c.h/30) 12 - 3) (min (9 - util.jsMod (c.h/30) 12) 1))))
    have h2 := toUint16_nonneg (255 * (c.l/100 - c.s/100 * min (c.l/100) (1 - c.l/100) *
      max (-1) (min (util.jsMod (c.h/30 + 8) 12 - 3) (min (9 - util.jsMod (c.h/30 + 8) 12) 1))))
    have h3 := toUint16_nonneg (255 * (c.l/100 - c.s/100 * min (c.l/100) (1 - c.l/100) *
      max (-1) (min (util.jsMod (c.h/30 + 4) 12 - 3) (min (9 - util.jsMod (c.h/30 + 4) 12) 1))))
    have w1 : (0:ℚ) ≤ 2126/10000 := by norm_num
    have w2 : (0:ℚ) ≤ 7152/10000 := by norm_num
    have w3 : (0:ℚ) ≤ 722/10000 := by norm_num
    have := add_nonneg (add_nonneg (mul_nonneg w1 h1) (mul_nonneg w2 h2)) (mul_nonneg w3 h3)
    simpa using this

theorem luma_of_rgbFresh (c : Color) (h : c.model &&& 1 ≠ 0) :
    luma c = 2126/10000 * c.r + 7152/10000 * c.g + 722/10000 * c.b := by
  unfold luma rgbSync
  rw [if_pos h]

theorem luma_le_255 (c : Color) (h : c.model &&& 1 ≠ 0)
    (hr : c.r ≤ 255) (hg : c.g ≤ 255) (hb : c.b ≤ 255) : luma c ≤ 255 := by
  rw [luma_of_rgbFresh c h]
  nlinarith

end idx

/-- C9: the contrast of two colors is the shifted quotient of their lumas
normalized to [0,1]: contrast(a,b) = (max(L1,L2)+0.05)/(min(L1,L2)+0.05);
contrast(c,c) = 1 for every color with nonnegative channels; white against
black gives exactly 21; and over the data model colors (byte range, RGB
fresh) the value always lies in [1,21]. -/
theorem contrast_formula_and_range :
    (∀ a b : idx.Color, idx.contrast a b
        = (max (idx.luma a / 255) (idx.luma b / 255) + 1/20)
          / (min (idx.luma a / 255) (idx.luma b / 255) + 1/20))
  ∧ (∀ c : idx.Color, 0 ≤ c.r → 0 ≤ c.g → 0 ≤ c.b → idx.contrast c c = 1)
  ∧ idx.contrast (idx.mkColor 255 255 255 255) (idx.mkColor 0 0 0 255) = 21
  ∧ (∀ a b : idx.Color, idx.validRGB a → idx.validRGB b →
        1 ≤ idx.contrast a b ∧ idx.contrast a b ≤ 21) := by
  have hpos : ∀ x : ℚ, 0 ≤ x → 0 < x + 1/20 := fun x hx => by linarith
  refine ⟨fun a b => rfl, ?_, ?_, ?_⟩
  · intro c hr hg hb
    have h0 := idx.luma_nonneg c hr hg hb
    have hEq : idx.contrast c c
        = (max (idx.luma c / 255) (idx.luma c / 255) + 1/20)
          / (min (idx.luma c / 255) (idx.luma c / 255) + 1/20) := rfl
    rw [hEq, max_self, min_self]
    exact div_self (ne_of_gt (hpos _ (by positivity)))
  · norm_num [idx.contrast, idx.luma, idx.rgbSync, idx.mkColor, idx.toUint16,
      util.ratTrunc, min_def, max_def]
  · intro a b ha hb
    obtain ⟨ham, har0, har1, hag0, hag1, hab0, hab1⟩ := ha
    obtain ⟨hbm, hbr0, hbr1, hbg0, hbg1, hbb0, hbb1⟩ := hb
    have la0 : 0 ≤ idx.luma a / 255 := by
      have := idx.luma_nonneg a har0 hag0 hab0
      positivity
    have lb0 : 0 ≤ idx.luma b / 255 := by
      have := idx.luma_nonneg b hbr0 hbg0 hbb0
      positivity
    have la1 : idx.luma a / 255 ≤ 1 := by
      have := idx.luma_le_255 a ham har1 hag1 hab1
      rw [div_le_one (by norm_num : (0:ℚ) < 255)]
      exact this
    have lb1 : idx.luma b / 255 ≤ 1 := by
      have := idx.luma_le_255 b hbm hbr1 hbg1 hbb1
      rw [div_le_one (by norm_num : (0:ℚ) < 255)]
      exact this
    have hmin0 : 0 ≤ min (idx.luma a / 255) (idx.luma b / 255) := le_min la0 lb0
    have hmax1 : max (idx.luma a / 255) (idx.luma b / 255) ≤ 1 := max_le la1 lb1
    have hod : 0 < min (idx.luma a / 255) (idx.luma b / 255) + 1/20 := hpos _ hmin0
    have hEq : idx.contrast a b
        = (max (idx.luma a / 255) (idx.luma b / 255) + 1/20)
          / (min (idx.luma a / 255) (idx.luma b / 255) + 1/20) := rfl
    rw [hEq]
    constructor
    · rw [le_div_iff₀ hod]
      have := min_le_max (a := idx.luma a / 255) (b := idx.luma b / 255)
      linarith
    · rw [div_le_iff₀ hod]
      linarith

/-- C9 witness: the hypothesis bearing parts applied at concrete colors:
a gray color against itself gives 1, and white against black gives a
contrast inside [1,21]. -/
theorem contrast_formula_and_range_witness :
    ((0:ℚ) ≤ (idx.mkColor 10 20 30 255).r
      ∧ idx.validRGB (idx.mkColor 255 255 255 255)
      ∧ idx.validRGB (idx.mkColor 0 0 0 255))
  ∧ idx.contrast (idx.mkColor 10 20 30 255) (idx.mkColor 10 20 30 255) = 1
  ∧ (1 ≤ idx.contrast (idx.mkColor 255 255 255 255) (idx.mkColor 0 0 0 255)
      ∧ idx.contrast (idx.mkColor 255 255 255 255) (idx.mkColor 0 0 0 255) ≤ 21) := by
  have hv1 : idx.validRGB (idx.mkColor 255 255 255 255) := by
    refine ⟨by decide, ?_, ?_, ?_, ?_, ?_, ?_⟩ <;>
      norm_num [idx.mkColor, idx.toUint16, util.ratTrunc]
  have hv2 : idx.validRGB (idx.mkColor 0 0 0 255) := by
    refine ⟨by decide, ?_, ?_, ?_, ?_, ?_, ?_⟩ <;>
      norm_num [idx.mkColor, idx.toUint16, util.ratTrunc]
  refine ⟨⟨?_, hv1, hv2⟩, ?_, contrast_formula_and_range.2.2.2 _ _ hv1 hv2⟩
  · norm_num [idx.mkColor, idx.toUint16, util.ratTrunc]
  · refine contrast_formula_and_range.2.1 _ ?_ ?_ ?_ <;>
      norm_num [idx.mkColor, idx.toUint16, util.ratTrunc]

/-!
C1 groundwork.  The two conversion getters return the authoritative
representation and preserve it, the alpha report, the background, the memo
slots and the well-formedness invariant.
-/

@[simp] theorem RGBa.fromHSLa_a (x : HSLa) : (RGBa.fromHSLa x).a = util.byte_ (x.a * 255) := rfl

@[simp] theorem HSLa.fromRGBa_a (x : RGBa) : (HSLa.fromRGBa x).a = util.unit (x.a / 255) := rfl

@[simp] theorem RGBa.contrast_a (x : RGBa) (v : ℚ) : (x.contrast v).a = x.a := rfl

@[simp] theorem RGBa.brightness_a (x : RGBa) (v : ℚ) : (x.brightness v).a = x.a := rfl

@[simp] theorem RGBa.invert_a (x : RGBa) : x.invert.a = x.a := rfl

@[simp] theorem RGBa.solid_a (x : RGBa) (bg : Option RGBa) : (x.solid bg).a = 255 := rfl

@[simp] theorem RGBa.opacity_a (x : RGBa) (v : ℚ) : (x.opacity v).a = util.byte_ (v * 255) := rfl

theorem util.unit_div255_eq_one_iff (a : ℚ) (h : a ≤ 255) :
    util.unit (a / 255) = 1 ↔ a = 255 := by
  unfold util.unit util.limit
  have hle : a / 255 ≤ 1 := by rw [div_le_one (by norm_num : (0:ℚ) < 255)]; exact h
  rw [if_neg (by linarith : ¬ a / 255 > 1)]
  split_ifs with hneg
  · constructor
    · intro h01
      norm_num at h01
    · intro h255
      rw [h255] at hneg
      norm_num at hneg
  · rw [div_eq_one_iff_eq (by norm_num : (255:ℚ) ≠ 0)]

namespace ColorState

theorem rgbaD_a_le (c : ColorState) (hw : c.wfAlpha) : c.rgbaD.a ≤ 255 := by
  cases hr : c.rgba with
  | none => simp [rgbaD, hr]
  | some t => simpa [rgbaD, hr] using hw t hr

theorem hasAlpha_fromRGBa_of_le (x : RGBa) (h : x.a ≤ 255) :
    (HSLa.fromRGBa x).hasAlpha = x.hasAlpha := by
  unfold HSLa.hasAlpha RGBa.hasAlpha
  rw [HSLa.fromRGBa_a]
  exact decide_eq_decide.mpr (not_congr (util.unit_div255_eq_one_iff x.a h))

theorem RGBaGet_fst (c : ColorState) : c.RGBaGet.1 = c.authRGBa := by
  by_cases h : c.outdated = 0 <;> simp [RGBaGet, authRGBa, h]

theorem HSLaGet_fst (c : ColorState) : c.HSLaGet.1 = c.authHSLa := by
  by_cases h : c.outdated = 1 <;> simp [HSLaGet, authHSLa, h]

theorem RGBaGet_snd_authRGBa (c : ColorState) : c.RGBaGet.2.authRGBa = c.authRGBa := by
  by_cases h : c.outdated = 0 <;> simp [RGBaGet, authRGBa, rgbaD, h]

theorem RGBaGet_snd_authHSLa (c : ColorState) : c.RGBaGet.2.authHSLa = c.authHSLa := by
  by_cases h : c.outdated = 0 <;> simp [RGBaGet, authHSLa, hslaD, h]

theorem RGBaGet_snd_hasAlpha (c : ColorState) : c.RGBaGet.2.hasAlpha = c.hasAlpha := by
  by_cases h : c.outdated = 0 <;> simp [RGBaGet, hasAlpha, hslaD, h]

theorem RGBaGet_snd_backgound (c : ColorState) : c.RGBaGet.2.backgound = c.backgound := by
  by_cases h : c.outdated = 0 <;> simp [RGBaGet, h]

theorem RGBaGet_snd_lumaC (c : ColorState) : c.RGBaGet.2.lumaC = c.lumaC := by
  by_cases h : c.outdated = 0 <;> simp [RGBaGet, h]

theorem RGBaGet_snd_lumaYUVC (c : ColorState) : c.RGBaGet.2.lumaYUVC = c.lumaYUVC := by
  by_cases h : c.outdated = 0 <;> simp [RGBaGet, h]


theorem HSLaGet_snd_authRGBa (c : ColorState) : c.HSLaGet.2.authRGBa = c.authRGBa := by
  by_cases h : c.outdated = 1
  · simp [HSLaGet, authRGBa, rgbaD, h]
  · simp [HSLaGet, h]

theorem HSLaGet_snd_authHSLa (c : ColorState) : c.HSLaGet.2.authHSLa = c.authHSLa := by
  by_cases h : c.outdated = 1 <;> simp [HSLaGet, authHSLa, hslaD, h]

theorem HSLaGet_snd_hasAlpha (c : ColorState) (hw : c.wfAlpha) :
    c.HSLaGet.2.hasAlpha = c.hasAlpha := by
  by_cases h : c.outdated = 1
  · have ha := rgbaD_a_le c hw
    simp [HSLaGet, hasAlpha, hslaD, h]
    exact hasAlpha_fromRGBa_of_le c.rgbaD ha
  · simp [HSLaGet, h]

theorem HSLaGet_snd_backgound (c : ColorState) : c.HSLaGet.2.backgound = c.backgound := by
  by_cases h : c.outdated = 1 <;> simp [HSLaGet, h]

theorem HSLaGet_snd_lumaC (c : ColorState) : c.HSLaGet.2.lumaC = c.lumaC := by
  by_cases h : c.outdated = 1 <;> simp [HSLaGet, h]

theorem HSLaGet_snd_lumaYUVC (c : ColorState) : c.HSLaGet.2.lumaYUVC = c.lumaYUVC := by
  by_cases h : c.outdated = 1 <;> simp [HSLaGet, h]

theorem HSLaGet_snd_rgba (c : ColorState) : c.HSLaGet.2.rgba = c.rgba := by
  by_cases h : c.outdated = 1 <;> simp [HSLaGet, h]

theorem RGBaGet_snd_wfAlpha (c : ColorState) (hw : c.wfAlpha) : c.RGBaGet.2.wfAlpha := by
  by_cases h : c.outdated = 0
  · intro t ht
    simp [RGBaGet, h] at ht
    rw [← ht]
    exact util.byte__le _
  · intro t ht
    apply hw
    simpa [RGBaGet, h] using ht

theorem HSLaGet_snd_wfAlpha (c : ColorState) (hw : c.wfAlpha) : c.HSLaGet.2.wfAlpha := by
  intro t ht
  exact hw t (by rwa [HSLaGet_snd_rgba] at ht)

theorem RGBaGet_snd_authBg (c : ColorState) : c.RGBaGet.2.authBg = c.authBg := by
  unfold authBg
  rw [RGBaGet_snd_backgound]

theorem HSLaGet_snd_authBg (c : ColorState) : c.HSLaGet.2.authBg = c.authBg := by
  unfold authBg
  rw [HSLaGet_snd_backgound]

theorem RGBaGet_snd_lumaValue (c : ColorState) (Y : Bool) :
    c.RGBaGet.2.lumaValue Y = c.lumaValue Y := by
  unfold lumaValue
  rw [RGBaGet_snd_hasAlpha, RGBaGet_snd_authRGBa, RGBaGet_snd_authBg]

theorem HSLaGet_snd_lumaValue (c : ColorState) (hw : c.wfAlpha) (Y : Bool) :
    c.HSLaGet.2.lumaValue Y = c.lumaValue Y := by
  unfold lumaValue
  rw [HSLaGet_snd_hasAlpha c hw, HSLaGet_snd_authRGBa, HSLaGet_snd_authBg]

theorem cacheOK_of_none (c : ColorState) (h1 : c.lumaC = none) (h2 : c.lumaYUVC = none) :
    c.cacheOK := by
  constructor
  · intro v hv
    rw [h1] at hv
    exact absurd hv (by simp)
  · intro v hv
    rw [h2] at hv
    exact absurd hv (by simp)

theorem RGBaGet_snd_cacheOK (c : ColorState) (hc : c.cacheOK) : c.RGBaGet.2.cacheOK := by
  constructor
  · intro v hv hne
    rw [RGBaGet_snd_lumaC] at hv
    rw [RGBaGet_snd_lumaValue]
    exact hc.1 v hv hne
  · intro v hv hne
    rw [RGBaGet_snd_lumaYUVC] at hv
    rw [RGBaGet_snd_lumaValue]
    exact hc.2 v hv hne

theorem HSLaGet_snd_cacheOK (c : ColorState) (hw : c.wfAlpha) (hc : c.cacheOK) :
    c.HSLaGet.2.cacheOK := by
  constructor
  · intro v hv hne
    rw [HSLaGet_snd_lumaC] at hv
    rw [HSLaGet_snd_lumaValue c hw]
    exact hc.1 v hv hne
  · intro v hv hne
    rw [HSLaGet_snd_lumaYUVC] at hv
    rw [HSLaGet_snd_lumaValue c hw]
    exact hc.2 v hv hne

theorem RGBaGet_snd_WF (c : ColorState) (hw : c.WF) : c.RGBaGet.2.WF :=
  ⟨RGBaGet_snd_wfAlpha c hw.1, RGBaGet_snd_cacheOK c hw.2⟩

theorem HSLaGet_snd_WF (c : ColorState) (hw : c.WF) : c.HSLaGet.2.WF :=
  ⟨HSLaGet_snd_wfAlpha c hw.1, HSLaGet_snd_cacheOK c hw.1 hw.2⟩

theorem authBg_none (c : ColorState) (h : c.backgound = none) : c.authBg = none := by
  unfold authBg
  rw [h]
  rfl

theorem authBg_some (c bg : ColorState) (h : c.backgound = some bg) :
    c.authBg = some bg.authRGBa := by
  unfold authBg
  rw [h]
  rfl

theorem authRGBa_ext (c₁ c₂ : ColorState) (h1 : c₁.rgba = c₂.rgba)
    (h2 : c₁.hsla = c₂.hsla) (h3 : c₁.outdated = c₂.outdated) :
    c₁.authRGBa = c₂.authRGBa := by
  unfold authRGBa rgbaD hslaD
  rw [h1, h2, h3]

theorem authHSLa_ext (c₁ c₂ : ColorState) (h1 : c₁.rgba = c₂.rgba)
    (h2 : c₁.hsla = c₂.hsla) (h3 : c₁.outdated = c₂.outdated) :
    c₁.authHSLa = c₂.authHSLa := by
  unfold authHSLa rgbaD hslaD
  rw [h1, h2, h3]

theorem hasAlpha_ext (c₁ c₂ : ColorState) (h1 : c₁.rgba = c₂.rgba)
    (h2 : c₁.hsla = c₂.hsla) (h3 : c₁.outdated = c₂.outdated) :
    c₁.hasAlpha = c₂.hasAlpha := by
  unfold hasAlpha rgbaD hslaD
  rw [h1, h2, h3]

theorem wfAlpha_of_rgba_eq (c₁ c₂ : ColorState) (h1 : c₁.rgba = c₂.rgba)
    (hw : c₂.wfAlpha) : c₁.wfAlpha := by
  intro t ht
  exact hw t (h1 ▸ ht)

theorem lumaValue_ext (c₁ c₂ : ColorState) (h1 : c₁.rgba = c₂.rgba)
    (h2 : c₁.hsla = c₂.hsla) (h3 : c₁.outdated = c₂.outdated)
    (h4 : c₁.authBg = c₂.authBg) (Y : Bool) : c₁.lumaValue Y = c₂.lumaValue Y := by
  unfold lumaValue
  rw [hasAlpha_ext c₁ c₂ h1 h2 h3, authRGBa_ext c₁ c₂ h1 h2 h3, h4]

theorem lumaCompute_fst (c : ColorState) (Y : Bool) :
    (c.lumaCompute Y).1 = c.lumaValue Y := by
  unfold lumaCompute lumaValue
  cases ha : c.hasAlpha
  · simp only [ha, Bool.false_eq_true, if_false, RGBaGet_fst]
  · simp only [ha, if_true]
    cases hbg : c.RGBaGet.2.backgound with
    | none =>
        have hcb : c.backgound = none := by rw [← RGBaGet_snd_backgound c, hbg]
        simp only [hbg, RGBaGet_fst, authBg_none c hcb]
    | some bg =>
        have hcb : c.backgound = some bg := by rw [← RGBaGet_snd_backgound c, hbg]
        simp only [hbg, RGBaGet_fst, RGBaGet_fst bg, authBg_some c bg hcb]

theorem lumaCompute_snd_core (c : ColorState) (Y : Bool) :
    (c.lumaCompute Y).2.rgba = c.RGBaGet.2.rgba
  ∧ (c.lumaCompute Y).2.hsla = c.RGBaGet.2.hsla
  ∧ (c.lumaCompute Y).2.outdated = c.RGBaGet.2.outdated
  ∧ (c.lumaCompute Y).2.lumaC = c.lumaC
  ∧ (c.lumaCompute Y).2.lumaYUVC = c.lumaYUVC
  ∧ (c.lumaCompute Y).2.authBg = c.authBg := by
  unfold lumaCompute
  cases ha : c.hasAlpha
  · simp only [ha, Bool.false_eq_true, if_false]
    simp [RGBaGet_snd_lumaC, RGBaGet_snd_lumaYUVC, RGBaGet_snd_authBg]
  · simp only [ha, if_true]
    cases hbg : c.RGBaGet.2.backgound with
    | none =>
        simp only [hbg]
        simp [RGBaGet_snd_lumaC, RGBaGet_snd_lumaYUVC, RGBaGet_snd_authBg]
    | some bg =>
        have hcb : c.backgound = some bg := by rw [← RGBaGet_snd_backgound c, hbg]
        simp only [hbg]
        simp [RGBaGet_snd_lumaC, RGBaGet_snd_lumaYUVC, authBg, hcb,
          RGBaGet_snd_authRGBa]

theorem lumaCompute_snd_authRGBa (c : ColorState) (Y : Bool) :
    (c.lumaCompute Y).2.authRGBa = c.authRGBa := by
  have h := lumaCompute_snd_core c Y
  rw [authRGBa_ext _ _ h.1 h.2.1 h.2.2.1, RGBaGet_snd_authRGBa]

theorem lumaCompute_snd_authHSLa (c : ColorState) (Y : Bool) :
    (c.lumaCompute Y).2.authHSLa = c.authHSLa := by
  have h := lumaCompute_snd_core c Y
  rw [authHSLa_ext _ _ h.1 h.2.1 h.2.2.1, RGBaGet_snd_authHSLa]

theorem lumaCompute_snd_lumaValue (c : ColorState) (Y Y' : Bool) :
    (c.lumaCompute Y).2.lumaValue Y' = c.lumaValue Y' := by
  have h := lumaCompute_snd_core c Y
  have h4 : (c.lumaCompute Y).2.authBg = c.RGBaGet.2.authBg := by
    rw [h.2.2.2.2.2, RGBaGet_snd_authBg]
  rw [lumaValue_ext _ _ h.1 h.2.1 h.2.2.1 h4, RGBaGet_snd_lumaValue]

theorem lumaCompute_snd_wfAlpha (c : ColorState) (Y : Bool) (hw : c.wfAlpha) :
    (c.lumaCompute Y).2.wfAlpha :=
  wfAlpha_of_rgba_eq _ _ (lumaCompute_snd_core c Y).1 (RGBaGet_snd_wfAlpha c hw)

theorem lumaGet_fst (c : ColorState) (hc : c.cacheOK) : c.lumaGet.1 = c.lumaValue false := by
  unfold lumaGet
  cases hl : c.lumaC with
  | none => simpa using lumaCompute_fst c false
  | some v =>
      by_cases hv : v = 0
      · simpa [hv] using lumaCompute_fst c false
      · simpa [hv] using hc.1 v hl hv

theorem lumaYUVGet_fst (c : ColorState) (hc : c.cacheOK) :
    c.lumaYUVGet.1 = c.lumaValue true := by
  unfold lumaYUVGet
  cases hl : c.lumaYUVC with
  | none => simpa using lumaCompute_fst c true
  | some v =>
      by_cases hv : v = 0
      · simpa [hv] using lumaCompute_fst c true
      · simpa [hv] using hc.2 v hl hv

theorem lumaValue_mk_caches (d : ColorState) (l ly : Option ℚ) (Y : Bool) :
    (mk d.rgba d.hsla d.outdated d.backgound l ly).lumaValue Y = d.lumaValue Y :=
  lumaValue_ext _ _ rfl rfl rfl rfl Y

theorem lumaGet_snd_pres (c : ColorState) (hw : c.WF) :
    c.lumaGet.2.authRGBa = c.authRGBa
  ∧ c.lumaGet.2.authHSLa = c.authHSLa
  ∧ (∀ Y, c.lumaGet.2.lumaValue Y = c.lumaValue Y)
  ∧ c.lumaGet.2.WF := by
  have hcompute :
      (mk (c.lumaCompute false).2.rgba (c.lumaCompute false).2.hsla
        (c.lumaCompute false).2.outdated (c.lumaCompute false).2.backgound
        (some ((c.lumaCompute false).1)) (c.lumaCompute false).2.lumaYUVC).authRGBa
          = c.authRGBa
    ∧ (mk (c.lumaCompute false).2.rgba (c.lumaCompute false).2.hsla
        (c.lumaCompute false).2.outdated (c.lumaCompute false).2.backgound
        (some ((c.lumaCompute false).1)) (c.lumaCompute false).2.lumaYUVC).authHSLa
          = c.authHSLa
    ∧ (∀ Y, (mk (c.lumaCompute false).2.rgba (c.lumaCompute false).2.hsla
        (c.lumaCompute false).2.outdated (c.lumaCompute false).2.backgound
        (some ((c.lumaCompute false).1)) (c.lumaCompute false).2.lumaYUVC).lumaValue Y
          = c.lumaValue Y)
    ∧ (mk (c.lumaCompute false).2.rgba (c.lumaCompute false).2.hsla
        (c.lumaCompute false).2.outdated (c.lumaCompute false).2.backgound
        (some ((c.lumaCompute false).1)) (c.lumaCompute false).2.lumaYUVC).WF := by
    have hcore := lumaCompute_snd_core c false
    have hA : ∀ Y, (mk (c.lumaCompute false).2.rgba (c.lumaCompute false).2.hsla
        (c.lumaCompute false).2.outdated (c.lumaCompute false).2.backgound
        (some ((c.lumaCompute false).1)) (c.lumaCompute false).2.lumaYUVC).lumaValue Y
          = c.lumaValue Y := fun Y =>
      (lumaValue_mk_caches (c.lumaCompute false).2 _ _ Y).trans
        (lumaCompute_snd_lumaValue c false Y)
    refine ⟨?_, ?_, hA, ?_, ?_, ?_⟩
    · exact (authRGBa_ext _ (c.lumaCompute false).2 rfl rfl rfl).trans
        (lumaCompute_snd_authRGBa c false)
    · exact (authHSLa_ext _ (c.lumaCompute false).2 rfl rfl rfl).trans
        (lumaCompute_snd_authHSLa c false)
    · exact wfAlpha_of_rgba_eq _ _ rfl (lumaCompute_snd_wfAlpha c false hw.1)
    · intro w hwc hne
      have hw1 : w = (c.lumaCompute false).1 := by
        rw [lumaC_mk] at hwc
        exact (Option.some.injEq _ _ ▸ hwc).symm
      rw [hA false, hw1, lumaCompute_fst]
    · intro w hwc hne
      rw [lumaYUVC_mk] at hwc
      rw [hA true]
      exact hw.2.2 w (hcore.2.2.2.2.1 ▸ hwc) hne
  unfold lumaGet
  cases hl : c.lumaC with
  | none => exact hcompute
  | some v =>
      by_cases hv : v = 0
      · simpa [hv] using hcompute
      · simp only [show (v = 0) = False from eq_false hv, if_false]
        simpa using hw

theorem lumaYUVGet_snd_pres (c : ColorState) (hw : c.WF) :
    c.lumaYUVGet.2.authRGBa = c.authRGBa
  ∧ c.lumaYUVGet.2.authHSLa = c.authHSLa
  ∧ (∀ Y, c.lumaYUVGet.2.lumaValue Y = c.lumaValue Y)
  ∧ c.lumaYUVGet.2.WF := by
  have hcompute :
      (mk (c.lumaCompute true).2.rgba (c.lumaCompute true).2.hsla
        (c.lumaCompute true).2.outdated (c.lumaCompute true).2.backgound
        (c.lumaCompute true).2.lumaC (some ((c.lumaCompute true).1))).authRGBa
          = c.authRGBa
    ∧ (mk (c.lumaCompute true).2.rgba (c.lumaCompute true).2.hsla
        (c.lumaCompute true).2.outdated (c.lumaCompute true).2.backgound
        (c.lumaCompute true).2.lumaC (some ((c.lumaCompute true).1))).authHSLa
          = c.authHSLa
    ∧ (∀ Y, (mk (c.lumaCompute true).2.rgba (c.lumaCompute true).2.hsla
        (c.lumaCompute true).2.outdated (c.lumaCompute true).2.backgound
        (c.lumaCompute true).2.lumaC (some ((c.lumaCompute true).1))).lumaValue Y
          = c.lumaValue Y)
    ∧ (mk (c.lumaCompute true).2.rgba (c.lumaCompute true).2.hsla
        (c.lumaCompute true).2.outdated (c.lumaCompute true).2.backgound
        (c.lumaCompute true).2.lumaC (some ((c.lumaCompute true).1))).WF := by
    have hcore := lumaCompute_snd_core c true
    have hA : ∀ Y, (mk (c.lumaCompute true).2.rgba (c.lumaCompute true).2.hsla
        (c.lumaCompute true).2.outdated (c.lumaCompute true).2.backgound
        (c.lumaCompute true).2.lumaC (some ((c.lumaCompute true).1))).lumaValue Y
          = c.lumaValue Y := fun Y =>
      (lumaValue_mk_caches (c.lumaCompute true).2 _ _ Y).trans
        (lumaCompute_snd_lumaValue c true Y)
    refine ⟨?_, ?_, hA, ?_, ?_, ?_⟩
    · exact (authRGBa_ext _ (c.lumaCompute true).2 rfl rfl rfl).trans
        (lumaCompute_snd_authRGBa c true)
    · exact (authHSLa_ext _ (c.lumaCompute true).2 rfl rfl rfl).trans
        (lumaCompute_snd_authHSLa c true)
    · exact wfAlpha_of_rgba_eq _ _ rfl (lumaCompute_snd_wfAlpha c true hw.1)
    · intro w hwc hne
      rw [lumaC_mk] at hwc
      rw [hA false]
      exact hw.2.1 w (hcore.2.2.2.1 ▸ hwc) hne
    · intro w hwc hne
      have hw1 : w = (c.lumaCompute true).1 := by
        rw [lumaYUVC_mk] at hwc
        exact (Option.some.injEq _ _ ▸ hwc).symm
      rw [hA true, hw1, lumaCompute_fst]
  unfold lumaYUVGet
  cases hl : c.lumaYUVC with
  | none => exact hcompute
  | some v =>
      by_cases hv : v = 0
      · simpa [hv] using hcompute
      · simp only [show (v = 0) = False from eq_false hv, if_false]
        simpa using hw

theorem authRGBa_a_le (c : ColorState) (hw : c.wfAlpha) : c.authRGBa.a ≤ 255 := by
  unfold authRGBa
  split
  · rw [RGBa.fromHSLa_a]
    exact util.byte__le _
  · exact rgbaD_a_le c hw

theorem contrast_auth (c : ColorState) (v : ℚ) :
    (c.contrast v).authRGBa = c.authRGBa.contrast v
  ∧ (c.contrast v).authHSLa = HSLa.fromRGBa (c.authRGBa.contrast v) := by
  unfold ColorState.contrast
  constructor
  · simp [authRGBa, rgbaD, RGBaGet_fst]
  · simp [authHSLa, rgbaD, RGBaGet_fst]

theorem contrast_WF (c : ColorState) (v : ℚ) (hw : c.WF) : (c.contrast v).WF := by
  refine ⟨?_, cacheOK_of_none _ rfl rfl⟩
  intro t ht
  simp only [ColorState.contrast, rgba_mk, Option.some.injEq] at ht
  rw [← ht, RGBa.contrast_a, RGBaGet_fst]
  exact authRGBa_a_le c hw.1

theorem brightness_auth (c : ColorState) (v : ℚ) :
    (c.brightness v).authRGBa = c.authRGBa.brightness v
  ∧ (c.brightness v).authHSLa = HSLa.fromRGBa (c.authRGBa.brightness v) := by
  unfold ColorState.brightness
  constructor
  · simp [authRGBa, rgbaD, RGBaGet_fst]
  · simp [authHSLa, rgbaD, RGBaGet_fst]

theorem brightness_WF (c : ColorState) (v : ℚ) (hw : c.WF) : (c.brightness v).WF := by
  refine ⟨?_, cacheOK_of_none _ rfl rfl⟩
  intro t ht
  simp only [ColorState.brightness, rgba_mk, Option.some.injEq] at ht
  rw [← ht, RGBa.brightness_a, RGBaGet_fst]
  exact authRGBa_a_le c hw.1

theorem invert_auth (c : ColorState) :
    c.invert.authRGBa = c.authRGBa.invert
  ∧ c.invert.authHSLa = HSLa.fromRGBa c.authRGBa.invert := by
  unfold ColorState.invert
  constructor
  · simp [authRGBa, rgbaD, RGBaGet_fst]
  · simp [authHSLa, rgbaD, RGBaGet_fst]

theorem invert_WF (c : ColorState) (hw : c.WF) : c.invert.WF := by
  refine ⟨?_, cacheOK_of_none _ rfl rfl⟩
  intro t ht
  simp only [ColorState.invert, rgba_mk, Option.some.injEq] at ht
  rw [← ht, RGBa.invert_a, RGBaGet_fst]
  exact authRGBa_a_le c hw.1

theorem rotateHue_auth (c : ColorState) (v : ℚ) :
    (c.rotateHue v).authRGBa = RGBa.fromHSLa (c.authHSLa.rotateHue v)
  ∧ (c.rotateHue v).authHSLa = c.authHSLa.rotateHue v := by
  unfold ColorState.rotateHue
  constructor
  · simp [authRGBa, hslaD, HSLaGet_fst]
  · simp [authHSLa, hslaD, HSLaGet_fst]

theorem rotateHue_WF (c : ColorState) (v : ℚ) (hw : c.WF) : (c.rotateHue v).WF := by
  refine ⟨?_, cacheOK_of_none _ rfl rfl⟩
  intro t ht
  simp only [ColorState.rotateHue, rgba_mk, HSLaGet_snd_rgba] at ht
  exact hw.1 t ht

theorem saturate_auth (c : ColorState) (v : ℚ) :
    (c.saturate v).authRGBa = RGBa.fromHSLa (c.authHSLa.saturate v)
  ∧ (c.saturate v).authHSLa = c.authHSLa.saturate v := by
  unfold ColorState.saturate
  constructor
  · simp [authRGBa, hslaD, HSLaGet_fst]
  · simp [authHSLa, hslaD, HSLaGet_fst]

theorem saturate_WF (c : ColorState) (v : ℚ) (hw : c.WF) : (c.saturate v).WF := by
  refine ⟨?_, cacheOK_of_none _ rfl rfl⟩
  intro t ht
  simp only [ColorState.saturate, rgba_mk, HSLaGet_snd_rgba] at ht
  exact hw.1 t ht

theorem invertHSL_auth (c : ColorState) :
    c.invertHSL.authRGBa = RGBa.fromHSLa c.authHSLa.invert
  ∧ c.invertHSL.authHSLa = c.authHSLa.invert := by
  unfold ColorState.invertHSL
  constructor
  · simp [authRGBa, hslaD, HSLaGet_fst]
  · simp [authHSLa, hslaD, HSLaGet_fst]

theorem invertHSL_WF (c : ColorState) (hw : c.WF) : c.invertHSL.WF := by
  refine ⟨?_, cacheOK_of_none _ rfl rfl⟩
  intro t ht
  simp only [ColorState.invertHSL, rgba_mk, HSLaGet_snd_rgba] at ht
  exact hw.1 t ht

theorem opacity_auth (c : ColorState) (v : ℚ) :
    (c.opacity v).authRGBa
      = (if c.outdated = 0 then RGBa.fromHSLa (c.authHSLa.opacity v)
         else c.authRGBa.opacity v)
  ∧ (c.opacity v).authHSLa
      = (if c.outdated = 0 then c.authHSLa.opacity v
         else HSLa.fromRGBa (c.authRGBa.opacity v)) := by
  unfold ColorState.opacity
  by_cases h : c.outdated = 0
  · constructor
    · simp [h, authRGBa, authHSLa, hslaD]
    · simp [h, authHSLa, hslaD]
  · constructor
    · simp [h, authRGBa, rgbaD]
    · simp [h, authHSLa, authRGBa, rgbaD]

theorem opacity_WF (c : ColorState) (v : ℚ) (hw : c.WF) : (c.opacity v).WF := by
  unfold ColorState.opacity
  by_cases h : c.outdated = 0
  · rw [if_pos h]
    refine ⟨?_, cacheOK_of_none _ rfl rfl⟩
    intro t ht
    exact hw.1 t ht
  · rw [if_neg h]
    refine ⟨?_, cacheOK_of_none _ rfl rfl⟩
    intro t ht
    simp only [rgba_mk, Option.some.injEq] at ht
    rw [← ht, RGBa.opacity_a]
    exact util.byte__le _

theorem solid_auth (c : ColorState) :
    c.solid.authRGBa
      = (if c.hasAlpha then c.authRGBa.solid c.authBg else c.authRGBa)
  ∧ c.solid.authHSLa
      = (if c.hasAlpha then HSLa.fromRGBa (c.authRGBa.solid c.authBg) else c.authHSLa) := by
  unfold ColorState.solid
  cases ha : c.hasAlpha
  · simp [ha]
  · simp only [ha, if_true]
    cases hbg : c.RGBaGet.2.backgound with
    | none =>
        have hcb : c.backgound = none := by rw [← RGBaGet_snd_backgound c, hbg]
        constructor
        · simp [hbg, authRGBa, rgbaD, RGBaGet_fst, authBg_none c hcb]
        · simp [hbg, authHSLa, rgbaD, RGBaGet_fst, authBg_none c hcb]
    | some bg =>
        have hcb : c.backgound = some bg := by rw [← RGBaGet_snd_backgound c, hbg]
        constructor
        · simp [hbg, authRGBa, rgbaD, RGBaGet_fst, RGBaGet_fst bg, authBg_some c bg hcb]
        · simp [hbg, authHSLa, rgbaD, RGBaGet_fst, RGBaGet_fst bg, authBg_some c bg hcb]

theorem solid_WF (c : ColorState) (hw : c.WF) : c.solid.WF := by
  unfold ColorState.solid
  cases ha : c.hasAlpha
  · simpa using hw
  · simp only [ha, if_true]
    cases hbg : c.RGBaGet.2.backgound with
    | none =>
        refine ⟨?_, cacheOK_of_none _ rfl rfl⟩
        intro t ht
        simp only [rgba_mk, Option.some.injEq] at ht
        rw [← ht, RGBa.solid_a]
    | some bg =>
        refine ⟨?_, cacheOK_of_none _ rfl rfl⟩
        intro t ht
        simp only [rgba_mk, Option.some.injEq] at ht
        rw [← ht, RGBa.solid_a]

theorem read_correct (c : ColorState) (hw : c.WF) (rd : Reader) :
    (readM rd c).1 = readSpec rd c := by
  cases rd <;>
    simp [readM, readSpec, RGBaGet_fst, HSLaGet_fst, lumaGet_fst c hw.2,
      lumaYUVGet_fst c hw.2]

theorem read_pres (c : ColorState) (hw : c.WF) (rd : Reader) :
    (readM rd c).2.authRGBa = c.authRGBa
  ∧ (readM rd c).2.authHSLa = c.authHSLa
  ∧ (∀ Y, (readM rd c).2.lumaValue Y = c.lumaValue Y)
  ∧ (readM rd c).2.WF := by
  cases rd
  case red => exact ⟨RGBaGet_snd_authRGBa c, RGBaGet_snd_authHSLa c,
    RGBaGet_snd_lumaValue c, RGBaGet_snd_WF c hw⟩
  case green => exact ⟨RGBaGet_snd_authRGBa c, RGBaGet_snd_authHSLa c,
    RGBaGet_snd_lumaValue c, RGBaGet_snd_WF c hw⟩
  case blue => exact ⟨RGBaGet_snd_authRGBa c, RGBaGet_snd_authHSLa c,
    RGBaGet_snd_lumaValue c, RGBaGet_snd_WF c hw⟩
  case bytes => exact ⟨RGBaGet_snd_authRGBa c, RGBaGet_snd_authHSLa c,
    RGBaGet_snd_lumaValue c, RGBaGet_snd_WF c hw⟩
  case hex => exact ⟨RGBaGet_snd_authRGBa c, RGBaGet_snd_authHSLa c,
    RGBaGet_snd_lumaValue c, RGBaGet_snd_WF c hw⟩
  case rgb => exact ⟨RGBaGet_snd_authRGBa c, RGBaGet_snd_authHSLa c,
    RGBaGet_snd_lumaValue c, RGBaGet_snd_WF c hw⟩
  case hue => exact ⟨HSLaGet_snd_authRGBa c, HSLaGet_snd_authHSLa c,
    HSLaGet_snd_lumaValue c hw.1, HSLaGet_snd_WF c hw⟩
  case saturation => exact ⟨HSLaGet_snd_authRGBa c, HSLaGet_snd_authHSLa c,
    HSLaGet_snd_lumaValue c hw.1, HSLaGet_snd_WF c hw⟩
  case lightness => exact ⟨HSLaGet_snd_authRGBa c, HSLaGet_snd_authHSLa c,
    HSLaGet_snd_lumaValue c hw.1, HSLaGet_snd_WF c hw⟩
  case HSLbytes => exact ⟨HSLaGet_snd_authRGBa c, HSLaGet_snd_authHSLa c,
    HSLaGet_snd_lumaValue c hw.1, HSLaGet_snd_WF c hw⟩
  case hsl => exact ⟨HSLaGet_snd_authRGBa c, HSLaGet_snd_authHSLa c,
    HSLaGet_snd_lumaValue c hw.1, HSLaGet_snd_WF c hw⟩
  case luma => exact lumaGet_snd_pres c hw
  case lumaYUV => exact lumaYUVGet_snd_pres c hw

theorem readSpec_pres (c : ColorState) (hw : c.WF) (rd rd' : Reader) :
    readSpec rd' (readM rd c).2 = readSpec rd' c := by
  have h := read_pres c hw rd
  cases rd' <;> simp [readSpec, h.1, h.2.1, h.2.2.1]

theorem mut_correct (c : ColorState) (hw : c.WF) (m : Mut) :
    (applyM m c).authRGBa = mutAuthRGBa m c
  ∧ (applyM m c).authHSLa = mutAuthHSLa m c
  ∧ (applyM m c).WF := by
  cases m
  case contrast v => exact ⟨(contrast_auth c v).1, (contrast_auth c v).2, contrast_WF c v hw⟩
  case brightness v => exact ⟨(brightness_auth c v).1, (brightness_auth c v).2,
    brightness_WF c v hw⟩
  case opacity v => exact ⟨(opacity_auth c v).1, (opacity_auth c v).2, opacity_WF c v hw⟩
  case solid => exact ⟨(solid_auth c).1, (solid_auth c).2, solid_WF c hw⟩
  case rotateHue v => exact ⟨(rotateHue_auth c v).1, (rotateHue_auth c v).2,
    rotateHue_WF c v hw⟩
  case saturate v => exact ⟨(saturate_auth c v).1, (saturate_auth c v).2, saturate_WF c v hw⟩
  case invert => exact ⟨(invert_auth c).1, (invert_auth c).2, invert_WF c hw⟩
  case invertHSL => exact ⟨(invertHSL_auth c).1, (invertHSL_auth c).2, invertHSL_WF c hw⟩

theorem foldl_WF (c : ColorState) (hw : c.WF) (ms : List Mut) :
    (ms.foldl (fun s m => applyM m s) c).WF := by
  induction ms generalizing c with
  | nil => exact hw
  | cons m ms ih => exact ih (applyM m c) (mut_correct c hw m).2.2

end ColorState

/-!
C1.  The freshness invariant of the Color facade, over the well formed
states (stored RGBa alpha bytes clamped, memo slots holding at most the
luma of the current state): every accessor returns the value the spec
assigns from the authoritative representation (converting the stale space
on read), reads change no observable value, every facade mutator leaves as
authoritative exactly its own operation applied to the previously
authoritative representation (converted across spaces for reads of the
other space), and therefore after any sequence of facade mutators every
accessor read is derived from the result of the most recent mutation.
-/

/-- C1: for every well formed Color state: (1) every accessor of the claim
list returns the spec value of the authoritative representation; (2) reads
leave every observable unchanged; (3) every facade mutator makes its own
operation on the previously authoritative representation the new
authoritative value of both spaces (converting for the opposite space), and
preserves well formedness; (4) hence after any sequence of facade mutators,
every accessor read returns the value derived from the representation the
last mutation wrote - never a stale one. -/
theorem freshness_invariant (c : ColorState) (hw : c.WF) :
    (∀ rd : Reader, (ColorState.readM rd c).1 = ColorState.readSpec rd c)
  ∧ (∀ rd rd' : Reader,
        ColorState.readSpec rd' (ColorState.readM rd c).2 = ColorState.readSpec rd' c)
  ∧ (∀ m : Mut,
        (ColorState.applyM m c).authRGBa = ColorState.mutAuthRGBa m c
      ∧ (ColorState.applyM m c).authHSLa = ColorState.mutAuthHSLa m c
      ∧ (ColorState.applyM m c).WF)
  ∧ (∀ (ms : List Mut) (rd : Reader),
        (ColorState.readM rd (ms.foldl (fun s m => ColorState.applyM m s) c)).1
          = ColorState.readSpec rd (ms.foldl (fun s m => ColorState.applyM m s) c)) :=
  ⟨ColorState.read_correct c hw,
   ColorState.readSpec_pres c hw,
   ColorState.mut_correct c hw,
   fun ms rd => ColorState.read_correct _ (ColorState.foldl_WF c hw ms) rd⟩

/-- C1 witness: the spec scenario: seed RGB (255,0,0,255) (a well formed
state), saturate by one half, then read red: the read goes through the
reconverted authoritative HSLa representation. -/
theorem freshness_invariant_witness :
    (ColorState.fromRGBaSeed ⟨255, 0, 0, 255⟩).WF
  ∧ (ColorState.readM Reader.red
        ([Mut.saturate (1/2)].foldl (fun s m => ColorState.applyM m s)
          (ColorState.fromRGBaSeed ⟨255, 0, 0, 255⟩))).1
      = ColorState.readSpec Reader.red
          ([Mut.saturate (1/2)].foldl (fun s m => ColorState.applyM m s)
            (ColorState.fromRGBaSeed ⟨255, 0, 0, 255⟩)) := by
  have hwf : (ColorState.fromRGBaSeed ⟨255, 0, 0, 255⟩).WF := by
    refine ⟨?_, ColorState.cacheOK_of_none _ rfl rfl⟩
    intro t ht
    have h2 : t = ⟨255, 0, 0, 255⟩ := by
      simpa [ColorState.fromRGBaSeed, eq_comm] using ht
    rw [h2]
  exact ⟨hwf, (freshness_invariant _ hwf).2.2.2 [Mut.saturate (1/2)] Reader.red⟩
